import Mathlib

/-!
# Verification of the FSM-Guidelines pipeline validation and checkpoint code

Shallow embedding of `pipeline_validation_checks.py` and
`normalized_checkpoint_system.py`.

Modelling conventions:
* A pandas `DataFrame` is a list of column names plus a list of rows
  (each row a list of cells, positionally aligned with the columns).
* A cell (`Value`) is either missing (`na`, modelling `NaN`/`None`), a
  string, an integer, or a boolean.
* Python `float` arithmetic in threshold comparisons is modelled by exact
  rational arithmetic (`ℚ`).  At every concrete boundary exercised by a
  theorem below the two agree (checked against CPython: e.g.
  `200 * 1.2 == 240.0` exactly in binary64).
* The process-wide `WARNINGS` / `ERRORS` lists are threaded explicitly as a
  `Logs` state.  Formatted message strings are modelled by a structured
  `Msg` type that records exactly the data interpolated into the Python
  format string (phase name, counts, examples); the surrounding prose of
  the message is not load-bearing and is not modelled.
* `print` calls are pure observations and are dropped.
* Regular expressions are modelled by dedicated scanners over `List Char`,
  faithful to the concrete patterns appearing in the source
  (`\bNCT\d{8}\b` with `re.IGNORECASE`, `\bNCT\d+\b`, `^NCT\d{8}$`),
  including `re.match` anchoring and the Python `$`-matches-before-a-final-
  newline behaviour.  Character classes `\d`/`\w` are modelled over ASCII
  (the data processed by the pipeline is ASCII).
* Reading a column that is absent from a dataframe would raise `KeyError`
  in pandas; the embedding totalises such reads to `na` cells.  Every
  theorem whose proof traverses such a read carries a column-presence
  hypothesis, so the totalisation is never load-bearing.
-/

/-- A dataframe cell: missing (`NaN`), string, integer or boolean. -/
inductive Value
  | na
  | vStr (s : String)
  | vInt (n : Int)
  | vBool (b : Bool)
deriving DecidableEq, Repr

/-- `pd.Series.astype(str)` cell-wise: `NaN` renders as `"nan"`,
booleans as `"True"`/`"False"`, integers in decimal. -/
def pyStr : Value → String
  | .na => "nan"
  | .vStr s => s
  | .vInt n => toString n
  | .vBool b => if b then "True" else "False"

/-- Python truthiness of a cell after `.fillna(False)`, as used by
`.fillna(False).astype(bool)` on the `is_clinical_trial` column. -/
def pyTruthy : Value → Bool
  | .na => false
  | .vStr s => s ≠ ""
  | .vInt n => n ≠ 0
  | .vBool b => b

/-- A pandas `DataFrame`: column names plus rows of cells, positionally
aligned with the columns. -/
structure DataFrame where
  cols : List String
  rows : List (List Value)
deriving DecidableEq, Repr

/-- Cell of `row` at column `c` (`na` when the column is absent: pandas
would raise `KeyError`, see the header note on totalisation). -/
def DataFrame.cell (df : DataFrame) (row : List Value) (c : String) : Value :=
  match df.cols.indexOf? c with
  | some i => row.getD i .na
  | none => .na

/-- The column `c` of the dataframe, as a list of cells (`df[c]`). -/
def DataFrame.colVals (df : DataFrame) (c : String) : List Value :=
  df.rows.map (fun r => df.cell r c)

/-- `df[c].nunique()` (pandas default `dropna=True`): number of distinct
non-missing values in column `c`. -/
def DataFrame.nunique (df : DataFrame) (c : String) : Nat :=
  (((df.colVals c).filter (fun v => v ≠ .na)).dedup).length

/-- Projection of a row onto the key columns (`row[columns]`), the
value-tuple used by duplicate detection. -/
def rowKey (df : DataFrame) (columns : List String) (row : List Value) : List Value :=
  columns.map (fun c => df.cell row c)

/-- `df.duplicated(subset=columns, keep=False)`: a row is marked iff its
key-tuple occurs in at least two rows. -/
def dupMaskKeepFalse (df : DataFrame) (columns : List String) : List Bool :=
  df.rows.map (fun r =>
    2 ≤ df.rows.countP (fun r2 => rowKey df columns r2 = rowKey df columns r))

/-- `duplicated(subset=...)` with the default `keep='first'` over a list of
keys: an element is marked iff an equal key occurred strictly earlier. -/
def dupMaskKeepFirst {α : Type} [DecidableEq α] (seen : List α) : List α → List Bool
  | [] => []
  | k :: ks => (k ∈ seen) :: dupMaskKeepFirst (k :: seen) ks

/-- Structured rendering of the formatted warning/error strings the Python
code appends to `WARNINGS` / `ERRORS`.  Each constructor records the data
interpolated into the corresponding f-string. -/
inductive Msg
  | rowCountMismatch (phase : String) (expected actual : Nat)
  | dupMissingCols (phase : String) (missing : List String)
  | dupFound (phase : String) (count : Nat) (examples : List (List Value))
  | colUniqueSuspicious (phase : String) (col : String) (actualUnique expectedUnique : Nat)
  | cartesianSuspected (phase : String) (actualRows expectedMax : Nat)
  | invalidColValues (phase : String) (col : String) (count : Nat) (examples : List Value)
  | missingCriticalCols (phase : String) (missing : List String)
  | nullPmids (phase : String) (count : Nat)
  | lowCoverage (phase : String) (expected actual : Nat)
  | skewedRefCount (phase : String) (maxRefs : Nat)
  | lowRefTotal (phase : String) (total expectedMin : Nat)
  | highRefTotal (phase : String) (total expectedMax : Nat)
  | missingRequiredCols (phase : String) (missing : List String)
  | pluralGuidelineCol (phase : String)
  | missingIsClinicalTrial (phase : String)
  | citationRatioBad (phase : String) (ratio : ℚ)
  | highTrialRate (phase : String) (pct : ℚ)
  | suspiciousNct (phase : String) (count : Nat)
  | dupNctWithinPmid (phase : String) (count : Nat)
  | withDupsFewerRows (phase : String) (withDups dedup : Nat)
  | highCitationRatio (phase : String) (ratio : ℚ)
  | notMoreTrials (phase : String) (trials expectedMin : Nat)
deriving DecidableEq

/-- The process-wide `WARNINGS` and `ERRORS` accumulators, threaded as an
explicit state. -/
structure Logs where
  warnings : List Msg
  errors : List Msg
deriving DecidableEq

/-- `WARNINGS.append(msg)`. -/
def Logs.warn (st : Logs) (m : Msg) : Logs :=
  { st with warnings := st.warnings ++ [m] }

/-- `ERRORS.append(msg)`. -/
def Logs.err (st : Logs) (m : Msg) : Logs :=
  { st with errors := st.errors ++ [m] }

/-- `TOLERANCE_STRICT = 0.01`. -/
def TOLERANCE_STRICT : ℚ := 1 / 100

/-- `TOLERANCE_NORMAL = 0.05`. -/
def TOLERANCE_NORMAL : ℚ := 5 / 100

/-- `TOLERANCE_LOOSE = 0.10`. -/
def TOLERANCE_LOOSE : ℚ := 10 / 100

/-- `check_row_count_match(actual_df, expected_count, phase_name,
tolerance, explanation)`: passes when `expected_count == 0`, else fails
(with a warning) when `|actual − expected| / expected · 100 > tolerance · 100`. -/
def check_row_count_match (actual_df : DataFrame) (expected_count : Nat)
    (phase_name : String) (tolerance : ℚ) (st : Logs) : Bool × Logs :=
  let actual_count := actual_df.rows.length
  if expected_count = 0 then (true, st)
  else
    let pct_diff : ℚ := |(actual_count : ℚ) - (expected_count : ℚ)| / (expected_count : ℚ) * 100
    if pct_diff > tolerance * 100 then
      (false, st.warn (.rowCountMismatch phase_name expected_count actual_count))
    else (true, st)

/-- `check_no_duplicates(df, columns, phase_name, description)`: empty
dataframe passes immediately; missing key columns degrade to a failed
check with a warning; otherwise counts rows marked by
`duplicated(subset=columns, keep=False)` and records an error (with the
first 3 duplicate key-tuples) when the count is positive. -/
def check_no_duplicates (df : DataFrame) (columns : List String)
    (phase_name : String) (st : Logs) : Bool × Logs :=
  if df.rows.length = 0 then (true, st)
  else
    let missing_cols := columns.filter (fun c => c ∉ df.cols)
    if missing_cols ≠ [] then
      (false, st.warn (.dupMissingCols phase_name missing_cols))
    else
      let dups_mask := dupMaskKeepFalse df columns
      let dup_count := dups_mask.countP (fun b => b)
      if dup_count > 0 then
        let examples :=
          ((df.rows.zip dups_mask).filterMap
            (fun p => if p.2 then some (rowKey df columns p.1) else none)).take 3
        (false, st.err (.dupFound phase_name dup_count examples))
      else (true, st)

/-- The fold inside `check_cartesian_product`: walks the
`expected_unique_counts` dict in order, multiplying the expected bound by
the expected unique count of each column *present in the dataframe*, and
warning about columns whose actual distinct count exceeds 1.5× the
expectation. -/
def cartesianFold (df : DataFrame) (phase_name : String)
    (items : List (String × Nat)) (acc : Nat × Logs) : Nat × Logs :=
  items.foldl
    (fun acc p =>
      if p.1 ∈ df.cols then
        let actual_unique := df.nunique p.1
        let st :=
          if (actual_unique : ℚ) > (p.2 : ℚ) * (3 / 2) then
            acc.2.warn (.colUniqueSuspicious phase_name p.1 actual_unique p.2)
          else acc.2
        (acc.1 * p.2, st)
      else acc)
    acc

/-- `check_cartesian_product(df, expected_unique_counts, phase_name)`:
fails (recording an error) exactly when the actual row count exceeds
1.2× the product of the expected unique counts of the named columns that
are present in the dataframe. -/
def check_cartesian_product (df : DataFrame)
    (expected_unique_counts : List (String × Nat)) (phase_name : String)
    (st : Logs) : Bool × Logs :=
  let actual_rows := df.rows.length
  let acc := cartesianFold df phase_name expected_unique_counts (1, st)
  let expected_max := acc.1
  let st := acc.2
  if (actual_rows : ℚ) > (expected_max : ℚ) * (6 / 5) then
    (false, st.err (.cartesianSuspected phase_name actual_rows expected_max))
  else (true, st)

/-- `check_column_values(df, column, valid_pattern, phase_name,
description)`: absent column is not an error; otherwise every non-missing
value whose `astype(str)` rendering fails the pattern is counted invalid,
and a positive count fails the check with a warning listing the first 5
distinct invalid values. -/
def check_column_values (df : DataFrame) (column : String)
    (valid : String → Bool) (phase_name : String) (st : Logs) : Bool × Logs :=
  if column ∉ df.cols then (true, st)
  else if ((df.colVals column).filter (fun v => v ≠ .na ∧ ¬ valid (pyStr v))).length > 0 then
    (false, st.warn (.invalidColValues phase_name column
      ((df.colVals column).filter (fun v => v ≠ .na ∧ ¬ valid (pyStr v))).length
      ((((df.colVals column).filter (fun v => v ≠ .na ∧ ¬ valid (pyStr v))).dedup).take 5)))
  else (true, st)

/-- ASCII model of the regex word-character class `\w` (`[A-Za-z0-9_]`). -/
def isWordChar (c : Char) : Bool := c.isAlphanum || c = '_'

/-- Does the text start with `NCT` (case-insensitively) followed by exactly
8 ASCII digits and then a word boundary?  This is the body of the regex
`\bNCT\d{8}\b` (`re.IGNORECASE`); the boundary *before* the match is the
scanner's job. -/
def nctHereOk (l : List Char) : Bool :=
  match l with
  | c1 :: c2 :: c3 :: rest =>
    (c1 = 'N' || c1 = 'n') && (c2 = 'C' || c2 = 'c') && (c3 = 'T' || c3 = 't') &&
    (let digs := rest.take 8
     digs.length = 8 && digs.all Char.isDigit &&
       (match rest.drop 8 with
        | [] => true
        | a :: _ => !isWordChar a))
  | _ => false

/-- `re.findall(r"\bNCT\d{8}\b", text)` with `re.IGNORECASE`: scans left
to right, matching only at word boundaries and resuming after each
(non-overlapping) match.  `prevWord` says whether the previous character
is a word character (`false` at the start of the text); `skip` is the
number of characters of an emitted match still to consume (0 in normal
scanning — after a match the scanner consumes its 11 characters and
resumes with the word-boundary state of its final digit, hence `true`). -/
def findAllNct (skip : Nat) (prevWord : Bool) : List Char → List (List Char)
  | [] => []
  | c :: cs =>
    match skip with
    | s + 1 => findAllNct s true cs
    | 0 =>
      if !prevWord && nctHereOk (c :: cs) then
        ((c :: cs).take 11) :: findAllNct 10 true cs
      else
        findAllNct 0 (isWordChar c) cs

/-- `re.search(pattern, ...)` driver: is there a position, preceded by a
word boundary, where `checkAt` accepts the remaining text? -/
def searchNct (checkAt : List Char → Bool) (prevWord : Bool) : List Char → Bool
  | [] => false
  | c :: cs => (!prevWord && checkAt (c :: cs)) || searchNct checkAt (isWordChar c) cs

/-- After the maximal run of digits, is the next character a word-boundary
(end of text or a non-word character)?  Because digits are word
characters, `\d+\b` can only close at the end of the maximal digit run. -/
def afterDigitRunOk : List Char → Bool
  | [] => true
  | c :: cs => if c.isDigit then afterDigitRunOk cs else !isWordChar c

/-- Match body for `\bNCT\d+\b` (case-sensitive, as in the raw-field
`str.contains` check): literal `NCT`, at least one digit, word boundary
after the digit run. -/
def nctLooseHere (l : List Char) : Bool :=
  match l with
  | 'N' :: 'C' :: 'T' :: d :: rest => d.isDigit && afterDigitRunOk rest
  | _ => false

/-- Match body for `\bNCT\d{8}\b` (case-sensitive variant used by the
raw-field `str.contains` check). -/
def nctStrictHere (l : List Char) : Bool :=
  match l with
  | 'N' :: 'C' :: 'T' :: rest =>
    (let digs := rest.take 8
     digs.length = 8 && digs.all Char.isDigit &&
       (match rest.drop 8 with
        | [] => true
        | a :: _ => !isWordChar a))
  | _ => false

/-- The unique-preserving-order loop of `_parse_ncts_from_row` (the
`seen`/`uniq` accumulation). -/
def dedupSeen (seen : List String) : List String → List String
  | [] => []
  | n :: ns => if n ∈ seen then dedupSeen seen ns else n :: dedupSeen (n :: seen) ns

/-- `_parse_ncts_from_row(row)` (closure inside `validate_phase3`): collect
the `all_nct_numbers` and `nct_number` fields that exist and are
non-missing, join them with `" ; "`, find all `\bNCT\d{8}\b` matches
case-insensitively, upper-case them and deduplicate preserving the order
of first appearance. -/
def parse_ncts_from_row (df : DataFrame) (row : List Value) : List String :=
  let cands :=
    (if "all_nct_numbers" ∈ df.cols ∧ df.cell row "all_nct_numbers" ≠ .na then
      [pyStr (df.cell row "all_nct_numbers")] else []) ++
    (if "nct_number" ∈ df.cols ∧ df.cell row "nct_number" ≠ .na then
      [pyStr (df.cell row "nct_number")] else [])
  if cands = [] then []
  else
    let text := String.intercalate " ; " cands
    let found := (findAllNct 0 false text.data).map (fun m => String.mk (m.map Char.toUpper))
    dedupSeen [] found

/-- `nunique` over a raw list of cells (used for sub-selections of a
column). -/
def nuniqueVals (vals : List Value) : Nat :=
  ((vals.filter (fun v => v ≠ .na)).dedup).length

/-- `df.groupby(key).size()`: the sizes of the groups of equal non-missing
keys (pandas drops `NaN` group keys).  Only the multiset of sizes is
used by the callers (for `mean`/`max`). -/
def groupSizes (keys : List Value) : List Nat :=
  ((keys.filter (fun v => v ≠ .na)).dedup).map
    (fun k => (keys.filter (fun v => v ≠ .na)).count k)

/-- `validate_phase1(phase1_df)`.  The title/journal column reporting is
print-only and is dropped.  (If the `PMID` column were absent, the final
`isna` access would raise `KeyError` in pandas after the error was
recorded; the embedding totalises that read — the claims never exercise
it.) -/
def validate_phase1 (phase1_df : DataFrame) (st : Logs) : Bool × Logs :=
  let r1 := check_no_duplicates phase1_df ["PMID"] "Phase 1" st
  let st := r1.2
  let missing_base := (["PMID"] : List String).filter (fun c => c ∉ phase1_df.cols)
  let c2s : Bool × Logs :=
    if missing_base ≠ [] then (false, st.err (.missingCriticalCols "Phase 1" missing_base))
    else (true, st)
  let st := c2s.2
  let null_pmids := (phase1_df.colVals "PMID").countP (fun v => v = .na)
  let c3s : Bool × Logs :=
    if null_pmids > 0 then (false, st.warn (.nullPmids "Phase 1" null_pmids))
    else (true, st)
  (r1.1 && c2s.1 && c3s.1, c3s.2)

/-- `validate_phase2(phase2_df, phase1_df)`.  Check 2 (multiple citations
of the same article within a guideline) is informational only and always
appends `True`; the mean/median statistics are print-only except for the
`max_refs > mean_refs * 10` skew test (whose comparison is `False` in
Python when the group list is empty, both sides being `NaN`). -/
def validate_phase2 (phase2_df phase1_df : DataFrame) (st : Logs) : Bool × Logs :=
  let expected_guidelines := phase1_df.nunique "PMID"
  let actual_guidelines := phase2_df.nunique "guideline_pmid"
  let coverage_pct : ℚ :=
    if expected_guidelines > 0 then
      (actual_guidelines : ℚ) / (expected_guidelines : ℚ) * 100
    else 0
  let c1s : Bool × Logs :=
    if coverage_pct < 50 then
      (false, st.warn (.lowCoverage "Phase 2" expected_guidelines actual_guidelines))
    else (true, st)
  let st := c1s.2
  let c2 := true
  let sizes := groupSizes (phase2_df.colVals "guideline_pmid")
  let c3s : Bool × Logs :=
    if sizes.length = 0 then (true, st)
    else
      let mean_refs : ℚ := (sizes.sum : ℚ) / (sizes.length : ℚ)
      let max_refs := sizes.foldl max 0
      if (max_refs : ℚ) > mean_refs * 10 then
        (false, st.warn (.skewedRefCount "Phase 2" max_refs))
      else (true, st)
  let st := c3s.2
  let expected_min := expected_guidelines * 20
  let expected_max := expected_guidelines * 500
  let c4s : Bool × Logs :=
    if phase2_df.rows.length < expected_min then
      (false, st.warn (.lowRefTotal "Phase 2" phase2_df.rows.length expected_min))
    else if phase2_df.rows.length > expected_max then
      (false, st.warn (.highRefTotal "Phase 2" phase2_df.rows.length expected_max))
    else (true, st)
  (c1s.1 && c2 && c3s.1 && c4s.1, c4s.2)

/-- Phase 3's `citation_ratio`: `len(tmp) / unique_refs if unique_refs
else 0`. -/
def citationRatioQ (p3 : DataFrame) : ℚ :=
  let unique_refs := p3.nunique "ref_pmid"
  if unique_refs = 0 then 0 else (p3.rows.length : ℚ) / (unique_refs : ℚ)

/-- Phase 3's `tmp["is_clinical_trial"]` after the missing-column default
and `.fillna(False).astype(bool)` normalisation, one flag per row. -/
def p3_ict (p3 : DataFrame) : List Bool :=
  if "is_clinical_trial" ∈ p3.cols then (p3.colVals "is_clinical_trial").map pyTruthy
  else p3.rows.map (fun _ => false)

/-- `validate_phase3`, blocks up to and including the duplicate check and
the `is_clinical_trial` normalisation warning (everything between the
required-columns guard and the citation-ratio check).  Returns the
`checks_passed` entries appended by these blocks. -/
def p3_pre_ratio (phase3_df phase2_df : DataFrame) (st : Logs) : List Bool × Logs :=
  let expected_count := (phase2_df.colVals "ref_pmid").countP (fun v => v ≠ .na)
  let r1 := check_row_count_match phase3_df expected_count "Phase 3" TOLERANCE_NORMAL st
  let st := r1.2
  let c2s : Bool × Logs :=
    if "guideline_pmids" ∈ phase3_df.cols then (false, st.warn (.pluralGuidelineCol "Phase 3"))
    else (true, st)
  let st := c2s.2
  let r3 := check_no_duplicates phase3_df ["guideline_pmid", "ref_pmid"] "Phase 3" st
  let st := r3.2
  let st :=
    if "is_clinical_trial" ∈ phase3_df.cols then st
    else st.warn (.missingIsClinicalTrial "Phase 3")
  ([r1.1, true, c2s.1, r3.1], st)

/-- The citation-ratio check of `validate_phase3`: ratio `< 1.0` records
an error and fails this check; otherwise (including the `> 5.0`
informational branch) it passes. -/
def p3_ratio_check (phase3_df : DataFrame) (st : Logs) : Bool × Logs :=
  let ratio := citationRatioQ phase3_df
  if ratio < 1 then (false, st.err (.citationRatioBad "Phase 3" ratio))
  else (true, st)

/-- The PubMed-labelled clinical-trial-rate block of `validate_phase3`
(executed only when `unique_refs` is non-zero): very low rate is
informational, rate above 60% warns and fails. -/
def p3_ct_pct_block (p3 : DataFrame) (st : Logs) : List Bool × Logs :=
  let unique_refs := p3.nunique "ref_pmid"
  if unique_refs = 0 then ([], st)
  else
    let ct_unique_refs :=
      nuniqueVals (((p3.rows.zip (p3_ict p3)).filter (fun p => p.2)).map
        (fun p => p3.cell p.1 "ref_pmid"))
    let ct_pct : ℚ := (ct_unique_refs : ℚ) / (unique_refs : ℚ) * 100
    if ct_pct < 1 then ([true], st)
    else if ct_pct > 60 then ([false], st.warn (.highTrialRate "Phase 3" ct_pct))
    else ([true], st)

/-- A raw NCT field rendered as in `tmp.get(col, Series("")).fillna("")
.astype(str)`: missing column or `NaN` cell becomes the empty string. -/
def rawNctCell (p3 : DataFrame) (row : List Value) (c : String) : List Char :=
  if c ∈ p3.cols then
    (match p3.cell row c with
     | .na => ""
     | v => pyStr v).data
  else ([] : List Char)

/-- The per-row `raw_text` of the suspicious-NCT check:
`all_nct_numbers ++ " ; " ++ nct_number` after the rendering above. -/
def p3_raw_text (p3 : DataFrame) (row : List Value) : List Char :=
  rawNctCell p3 row "all_nct_numbers" ++ (" ; ".data) ++ rawNctCell p3 row "nct_number"

/-- A row is suspicious when its raw text contains `\bNCT\d+\b` but not
`\bNCT\d{8}\b` (both case-sensitive, as in the source). -/
def p3_suspicious_row (p3 : DataFrame) (row : List Value) : Bool :=
  searchNct nctLooseHere false (p3_raw_text p3 row) &&
    !(searchNct nctStrictHere false (p3_raw_text p3 row))

/-- The suspicious-NCT-strings block of `validate_phase3`: runs only when
an NCT column exists; a positive count of suspicious rows warns and
fails. -/
def p3_suspicious_block (p3 : DataFrame) (st : Logs) : List Bool × Logs :=
  if "all_nct_numbers" ∈ p3.cols ∨ "nct_number" ∈ p3.cols then
    let suspicious_count := p3.rows.countP (fun r => p3_suspicious_row p3 r)
    if suspicious_count > 0 then ([false], st.warn (.suspiciousNct "Phase 3" suspicious_count))
    else ([true], st)
  else ([true], st)

/-- `tmp[["ref_pmid", "parsed_ncts"]].explode("parsed_ncts").dropna(...)`:
one `(ref_pmid, nct)` pair per parsed NCT, rows with missing `ref_pmid`
dropped (a row with an empty parse list explodes to a `NaN` entry, which
`dropna` removes). -/
def p3_exploded (p3 : DataFrame) : List (Value × String) :=
  (p3.rows.filter (fun r => p3.cell r "ref_pmid" ≠ .na)).flatMap
    (fun r => (parse_ncts_from_row p3 r).map (fun n => (p3.cell r "ref_pmid", n)))

/-- The within-PMID duplicate-NCT block of `validate_phase3`
(`exploded.duplicated(...)` with the default `keep='first'`). -/
def p3_exploded_block (p3 : DataFrame) (st : Logs) : List Bool × Logs :=
  let exploded := p3_exploded p3
  if exploded.length > 0 then
    let dup_within := (dupMaskKeepFirst [] exploded).countP (fun b => b)
    if dup_within > 0 then ([false], st.warn (.dupNctWithinPmid "Phase 3" dup_within))
    else ([true], st)
  else ([true], st)

/-- The blocks of `validate_phase3` after the citation-ratio check.  The
multi-NCT report, the NCT-linked-but-unlabelled report and the guideline
coverage report are informational (each appends `True`; they also read
the `use_all_ncts` / `multi_nct_info_threshold` parameters, which only
shape the printed output and are therefore dropped). -/
def p3_post_ratio (p3 : DataFrame) (st : Logs) : List Bool × Logs :=
  let a := p3_ct_pct_block p3 st
  let b := p3_suspicious_block p3 a.2
  let c := p3_exploded_block p3 b.2
  (a.1 ++ b.1 ++ c.1 ++ [true, true, true], c.2)

/-- `validate_phase3(phase3_df, phase2_df)`: early `return False` when a
required column is missing; otherwise runs all blocks and returns
`all(checks_passed) and len(ERRORS) == 0` (over the *global* error log,
i.e. errors recorded by earlier validators also veto). -/
def validate_phase3 (phase3_df phase2_df : DataFrame) (st : Logs) : Bool × Logs :=
  let missing_required :=
    (["guideline_pmid", "ref_pmid"] : List String).filter (fun c => c ∉ phase3_df.cols)
  if missing_required ≠ [] then
    (false, st.err (.missingRequiredCols "Phase 3" missing_required))
  else
    let pre := p3_pre_ratio phase3_df phase2_df st
    let rb := p3_ratio_check phase3_df pre.2
    let post := p3_post_ratio phase3_df rb.2
    let critical_ok := (pre.1 ++ [rb.1] ++ post.1).all (fun b => b)
    (critical_ok && post.2.errors.isEmpty, post.2)

/-- The regex check `^NCT\d{8}$` under `re.match` (as used by
`str.match`): matches `NCT` + 8 ASCII digits, where Python's `$` also
accepts a single trailing newline. -/
def isNctStrictChars (l : List Char) : Bool :=
  match l with
  | c1 :: c2 :: c3 :: rest =>
    c1 = 'N' && c2 = 'C' && c3 = 'T' && rest.length = 8 && rest.all Char.isDigit
  | _ => false

/-- `re.match(r"^NCT\d{8}$", s)` as a boolean. -/
def pyMatchNct8 (s : String) : Bool :=
  isNctStrictChars s.data ||
    (match s.data.getLast? with
     | some c => c = '\n' && isNctStrictChars s.data.dropLast
     | none => false)

/-- `validate_phase4(phase4_df, phase3_df)`. -/
def validate_phase4 (phase4_df phase3_df : DataFrame) (st : Logs) : Bool × Logs :=
  let expected_count :=
    if "nct_number" ∈ phase3_df.cols then phase3_df.nunique "nct_number" else 0
  let r1 := check_no_duplicates phase4_df ["nct_number"] "Phase 4" st
  let r2 := check_row_count_match phase4_df expected_count "Phase 4" TOLERANCE_NORMAL r1.2
  let r3 := check_column_values phase4_df "nct_number" pyMatchNct8 "Phase 4" r2.2
  (r1.1 && r2.1 && r3.1, r3.2)

/-- `validate_phase5(phase5_df, phase1_df)`. -/
def validate_phase5 (phase5_df phase1_df : DataFrame) (st : Logs) : Bool × Logs :=
  let r1 := check_row_count_match phase5_df phase1_df.rows.length "Phase 5" TOLERANCE_STRICT st
  let r2 := check_no_duplicates phase5_df ["PMID"] "Phase 5" r1.2
  (r1.1 && r2.1, r2.2)

/-- `validate_phase6(phase6_df, phase3_df)` (the abstract-coverage
percentage is print-only). -/
def validate_phase6 (phase6_df phase3_df : DataFrame) (st : Logs) : Bool × Logs :=
  let r1 := check_row_count_match phase6_df phase3_df.rows.length "Phase 6" TOLERANCE_STRICT st
  let r2 := check_no_duplicates phase6_df ["guideline_pmid", "ref_pmid"] "Phase 6" r1.2
  (r1.1 && r2.1, r2.2)

/-- `validate_phase7(phase7_dedup_df, phase7_with_dups_df, phase4_df)`. -/
def validate_phase7 (phase7_dedup_df phase7_with_dups_df phase4_df : DataFrame)
    (st : Logs) : Bool × Logs :=
  let expected_unique := phase4_df.nunique "nct_number"
  let r1 := check_no_duplicates phase7_dedup_df ["nct_number"] "Phase 7 (Deduplicated)" st
  let r2 := check_row_count_match phase7_dedup_df expected_unique "Phase 7 (Deduplicated)"
    TOLERANCE_NORMAL r1.2
  let st := r2.2
  let c3s : Bool × Logs :=
    if phase7_with_dups_df.rows.length < phase7_dedup_df.rows.length then
      (false, st.err (.withDupsFewerRows "Phase 7" phase7_with_dups_df.rows.length
        phase7_dedup_df.rows.length))
    else (true, st)
  let r4 := check_column_values phase7_with_dups_df "nct_number" pyMatchNct8
    "Phase 7 (With Citations)" c3s.2
  let st := r4.2
  let ratio : ℚ :=
    if phase7_dedup_df.rows.length > 0 then
      (phase7_with_dups_df.rows.length : ℚ) / (phase7_dedup_df.rows.length : ℚ)
    else 0
  let c5s : Bool × Logs :=
    if ratio > 10 then (false, st.warn (.highCitationRatio "Phase 7" ratio))
    else (true, st)
  (r1.1 && r2.1 && c3s.1 && r4.1 && c5s.1, c5s.2)

/-- `validate_phase7b(phase7b_dedup_df, phase7b_citations_df, phase3_df,
phase7_dedup_df)` (`phase3_df` is accepted but unused, as in the
source). -/
def validate_phase7b (phase7b_dedup_df phase7b_citations_df phase3_df phase7_dedup_df :
    DataFrame) (st : Logs) : Bool × Logs :=
  let expected_min := phase7_dedup_df.rows.length
  let c1s : Bool × Logs :=
    if phase7b_dedup_df.rows.length ≤ expected_min then
      (false, st.warn (.notMoreTrials "Phase 7B" phase7b_dedup_df.rows.length expected_min))
    else (true, st)
  let r2 := check_no_duplicates phase7b_dedup_df ["ref_pmid"] "Phase 7B (Deduplicated)" c1s.2
  let st := r2.2
  let c3s : Bool × Logs :=
    if phase7b_citations_df.rows.length < phase7b_dedup_df.rows.length then
      (false, st.err (.withDupsFewerRows "Phase 7B" phase7b_citations_df.rows.length
        phase7b_dedup_df.rows.length))
    else (true, st)
  (c1s.1 && r2.1 && c3s.1, c3s.2)

/-- The filesystem the master runner reads its CSV inputs from: a map from
path to the parsed dataframe, `none` meaning the file does not exist. -/
def Env : Type := String → Option DataFrame

/-- `OUTPUT_FOLDER`. -/
def OUTPUT_FOLDER : String := "output"

/-- `os.path.join(OUTPUT_FOLDER, name)`. -/
def outPath (name : String) : String := OUTPUT_FOLDER ++ "/" ++ name

/-- `pd.read_csv(path)`: raises `FileNotFoundError` (modelled as
`Except.error path`) when the file is absent. -/
def read_csv (env : Env) (path : String) : Except String DataFrame :=
  match env path with
  | some df => .ok df
  | none => .error path

/-- The dataframes loaded at the start of `run_all_validations`;
`phase7b` is `none` when either optional Phase 7B file is missing. -/
structure PhaseData where
  phase1 : DataFrame
  phase2 : DataFrame
  phase3 : DataFrame
  phase4 : DataFrame
  phase5 : DataFrame
  phase6 : DataFrame
  phase7_dedup : DataFrame
  phase7_with_dups : DataFrame
  phase7b : Option (DataFrame × DataFrame)

/-- The loading block of `run_all_validations` (`try:` body): the eight
required files are loaded in order — the first missing one raises — and
the two optional Phase 7B files are guarded by an inner
`except FileNotFoundError` that merely clears `has_phase7b`. -/
def loadPhases (env : Env) : Except String PhaseData := do
  let phase1 ← read_csv env (outPath "phase1_pubmed_guidelines.csv")
  let phase2 ← read_csv env (outPath "phase2_crossref_guidelines_and_references.csv")
  let phase3 ← read_csv env (outPath "phase3_references_with_trials.csv")
  let phase4 ← read_csv env (outPath "phase4_ctgov_trials_detailed.csv")
  let phase5 ← read_csv env (outPath "phase5_guidelines_summary.csv")
  let phase6 ← read_csv env (outPath "phase6_references_with_abstracts.csv")
  let phase7_dedup ← read_csv env (outPath "phase7_trials_sex_analysis_deduplicated.csv")
  let phase7_with_dups ← read_csv env (outPath "phase7_trials_sex_analysis_with_duplicates.csv")
  let phase7b :=
    match read_csv env (outPath "phase7b_all_trials_deduplicated.csv") with
    | .error _ => none
    | .ok a =>
      match read_csv env (outPath "phase7b_all_trials_with_citations.csv") with
      | .error _ => none
      | .ok b => some (a, b)
  pure ⟨phase1, phase2, phase3, phase4, phase5, phase6, phase7_dedup, phase7_with_dups, phase7b⟩

/-- `run_all_validations()`: resets the logs, loads all phase outputs —
`except FileNotFoundError` catches a missing required file and returns
`(False, {})` — then runs every validator in order and returns
`(all(results.values()) and len(ERRORS) == 0, results)`.  An
`Except.error` result would model an exception escaping the function;
`FileNotFoundError` never escapes because the handler catches it. -/
def run_all_validations (env : Env) : Except String (Bool × List (String × Bool)) :=
  let st : Logs := ⟨[], []⟩
  match loadPhases env with
  | .error _ => .ok (false, [])
  | .ok d =>
    let r1 := validate_phase1 d.phase1 st
    let r2 := validate_phase2 d.phase2 d.phase1 r1.2
    let r3 := validate_phase3 d.phase3 d.phase2 r2.2
    let r4 := validate_phase4 d.phase4 d.phase3 r3.2
    let r5 := validate_phase5 d.phase5 d.phase1 r4.2
    let r6 := validate_phase6 d.phase6 d.phase3 r5.2
    let r7 := validate_phase7 d.phase7_dedup d.phase7_with_dups d.phase4 r6.2
    let base := [("Phase 1", r1.1), ("Phase 2", r2.1), ("Phase 3", r3.1), ("Phase 4", r4.1),
      ("Phase 5", r5.1), ("Phase 6", r6.1), ("Phase 7", r7.1)]
    let resSt : List (String × Bool) × Logs :=
      match d.phase7b with
      | some p =>
        let r7b := validate_phase7b p.1 p.2 d.phase3 d.phase7_dedup r7.2
        (base ++ [("Phase 7B", r7b.1)], r7b.2)
      | none => (base, r7.2)
    let all_passed := resSt.1.all (fun p => p.2) && resSt.2.errors.isEmpty
    .ok (all_passed, resSt.1)

/-- One item of a phase-1 checkpoint's `pubmed_data` payload: a record
mapping field names to values. -/
abbrev PubRec := List (String × Value)

/-- The phase-1 checkpoint dict built by `save_phase1_checkpoint`
(`datetime.now().isoformat()` is passed in as `timestamp`). -/
structure Phase1Checkpoint where
  batch_index : Nat
  pubmed_data : List PubRec
  failed_batches : List Nat
  total_count : Nat
  timestamp : String
deriving DecidableEq

/-- Contents of one file in the phase-1 checkpoint directory: a pickled
checkpoint, or the best-effort human-readable CSV mirror. -/
inductive CkptFile
  | pkl (c : Phase1Checkpoint)
  | csv (rows : List PubRec)
deriving DecidableEq

/-- The phase-1 checkpoint directory: filenames (in `os.listdir` order)
with their contents.  A `none` directory does not exist on disk. -/
abbrev Phase1Dir := List (List Char × CkptFile)

/-- Write (create or overwrite) the file `n` in a directory. -/
def fsWrite : Phase1Dir → List Char → CkptFile → Phase1Dir
  | [], n, f => [(n, f)]
  | e :: es, n, f => if e.1 = n then (n, f) :: es else e :: fsWrite es n f

/-- Python `str.replace(pat, rep)` over character lists (all
non-overlapping occurrences, scanning left to right).  The pattern is
passed as head and tail so that it is structurally non-empty. -/
def replaceAll (p : Char) (pr rep : List Char) : List Char → List Char
  | [] => []
  | c :: cs =>
    if (p :: pr).isPrefixOf (c :: cs) then rep ++ replaceAll p pr rep (cs.drop pr.length)
    else c :: replaceAll p pr rep cs
termination_by l => l.length
decreasing_by
  · simp [List.length_drop]; omega
  · simp

/-- `str(n)` for a natural number: decimal digits, most significant
first. -/
def natRender (n : Nat) : List Char :=
  if n = 0 then ['0'] else ((Nat.digits 10 n).map Nat.digitChar).reverse

/-- Zero padding to width 5, as in the format spec `{...:05d}` (wider
numbers are rendered unpadded). -/
def zfill5 (s : List Char) : List Char := List.replicate (5 - s.length) '0' ++ s

/-- `f'phase1_checkpoint_batch_{batch_index:05d}.pkl'`. -/
def pklNameChars (c : Nat) : List Char :=
  "phase1_checkpoint_batch_".data ++ zfill5 (natRender c) ++ ".pkl".data

/-- `f'phase1_checkpoint_batch_{batch_index:05d}.csv'`. -/
def csvNameChars (c : Nat) : List Char :=
  "phase1_checkpoint_batch_".data ++ zfill5 (natRender c) ++ ".csv".data

/-- `save_phase1_checkpoint(batch_index, pubmed_data, failed_batches,
total_count)`: ensures the directory exists, writes the pickled snapshot
under the cursor-embedding filename, and additionally writes the CSV
mirror when `pubmed_data` is non-empty. -/
def save_phase1_checkpoint (dir : Option Phase1Dir) (batch_index : Nat)
    (pubmed_data : List PubRec) (failed_batches : List Nat) (total_count : Nat)
    (now : String) : Phase1Dir :=
  let fs := dir.getD []
  let checkpoint : Phase1Checkpoint :=
    ⟨batch_index, pubmed_data, failed_batches, total_count, now⟩
  let fs := fsWrite fs (pklNameChars batch_index) (.pkl checkpoint)
  if pubmed_data ≠ [] then fsWrite fs (csvNameChars batch_index) (.csv pubmed_data)
  else fs

/-- `str.startswith` over character lists. -/
def startsWithL (pre s : List Char) : Bool := pre.isPrefixOf s

/-- `str.endswith` over character lists. -/
def endsWithL (suf s : List Char) : Bool := suf.isSuffixOf s

/-- `int(s)` on a plain digit string: `some` of its value, `none` when
Python's `int` would raise `ValueError`.  (Sign and whitespace forms never
occur in checkpoint filenames and are not modelled.) -/
def parseNat (s : List Char) : Option Nat :=
  if s ≠ [] ∧ s.all Char.isDigit then
    some (s.foldl (fun a c => 10 * a + (c.toNat - 48)) 0)
  else none

/-- `x.replace('phase1_checkpoint_batch_', '').replace('.pkl', '')`, the
cursor-extraction expression of `load_phase1_checkpoint`. -/
def stripName (n : List Char) : List Char :=
  replaceAll '.' "pkl".data [] (replaceAll 'p' "hase1_checkpoint_batch_".data [] n)

/-- The `key=lambda x: int(...)` of the `max` call.  On a malformed
filename (where `int` would raise) the model defaults to 0; every load
considered by the theorems below is over well-formed stores, where the
parse always succeeds. -/
def parseKey (n : List Char) : Nat := (parseNat (stripName n)).getD 0

/-- Python `max(files, key=...)`: the first element attaining the maximal
key, scanning left to right. -/
def maxByKey (key : List Char → Nat) : List (List Char) → Option (List Char)
  | [] => none
  | x :: xs => some (xs.foldl (fun b a => if key a > key b then a else b) x)

/-- Outcome of `load_phase1_checkpoint()`: `absent` models `return None`,
`corrupt` models `pickle.load` raising on a non-pickle file (which the
function does not catch). -/
inductive LoadResult
  | absent
  | loaded (c : Phase1Checkpoint)
  | corrupt
deriving DecidableEq

/-- The filename filter of `load_phase1_checkpoint`:
`f.startswith('phase1_checkpoint_batch_') and f.endswith('.pkl')`. -/
def isCkptName (n : List Char) : Bool :=
  startsWithL "phase1_checkpoint_batch_".data n && endsWithL ".pkl".data n

/-- `load_phase1_checkpoint()`: `None` when the directory does not exist
or holds no `phase1_checkpoint_batch_*.pkl` file; otherwise deserializes
the file whose filename-embedded cursor is numerically maximal.  (The
lookup of the selected name cannot miss — the name comes from the
listing — so the fall-through is only the corrupt-content case.) -/
def load_phase1_checkpoint (dir : Option Phase1Dir) : LoadResult :=
  match dir with
  | none => .absent
  | some fs =>
    let checkpoint_files := (fs.map (fun e => e.1)).filter isCkptName
    match maxByKey parseKey checkpoint_files with
    | none => .absent
    | some latest =>
      match fs.find? (fun e => e.1 = latest) with
      | some e =>
        match e.2 with
        | .pkl c => .loaded c
        | .csv _ => .corrupt
      | none => .corrupt

/-- The key-tuples of all rows of a dataframe under the given key columns
(specification-side shorthand: "zero rows share a value-tuple on the key
columns" is `(dfKeys df columns).Nodup`). -/
def dfKeys (df : DataFrame) (columns : List String) : List (List Value) :=
  df.rows.map (fun r => rowKey df columns r)

/-- The number of rows sharing the key-tuple `k` on the key columns
("`k` appears `tupleCount` times"). -/
def tupleCount (df : DataFrame) (columns : List String) (k : List Value) : Nat :=
  df.rows.countP (fun r => rowKey df columns r = k)

/-- A dataframe with `n` rows and no columns (row counts are all
`check_row_count_match` looks at). -/
def dfN (n : Nat) : DataFrame := ⟨[], List.replicate n []⟩

/-- The `expected_max` accumulator of `check_cartesian_product`: the
product of the supplied expected-unique-counts of the named columns
*present in the dataframe* (absent columns are skipped by the
`if col in df.columns` guard). -/
def expectedMaxPresent (df : DataFrame) (items : List (String × Nat)) : Nat :=
  items.foldl (fun acc p => if p.1 ∈ df.cols then acc * p.2 else acc) 1

/-- The eight required phase files loaded by `run_all_validations` (in
load order). -/
def requiredFiles : List String :=
  [outPath "phase1_pubmed_guidelines.csv",
   outPath "phase2_crossref_guidelines_and_references.csv",
   outPath "phase3_references_with_trials.csv",
   outPath "phase4_ctgov_trials_detailed.csv",
   outPath "phase5_guidelines_summary.csv",
   outPath "phase6_references_with_abstracts.csv",
   outPath "phase7_trials_sex_analysis_deduplicated.csv",
   outPath "phase7_trials_sex_analysis_with_duplicates.csv"]

/-- Well-formedness of a phase-1 checkpoint directory as produced by
`save_phase1_checkpoint`: filenames are distinct, and every file passing
the `load` filter is a cursor-named `.pkl` file holding a pickled
checkpoint.  (CSV mirrors and unrelated files may be present; they fail
the filter.) -/
def GoodDir (fs : Phase1Dir) : Prop :=
  (fs.map (fun e => e.1)).Nodup ∧
  ∀ e ∈ fs, isCkptName e.1 = true →
    ∃ c ck, e.1 = pklNameChars c ∧ e.2 = CkptFile.pkl ck

/-!
## Theorems

One named theorem per claim (with witnesses/counterexamples where
required), preceded by the helper lemmas they share.
-/

/-- C5: `check_row_count_match` passes unconditionally when
`expected_count == 0`, and otherwise passes exactly when
`|actual − expected| / expected ≤ tolerance` (boundary inclusive);
with `actual = 105, expected = 100, tolerance = 0.05` it passes and with
`actual = 106` it fails. -/
theorem check_row_count_match_tolerance_boundary (actual_df : DataFrame)
    (expected_count : Nat) (phase_name : String) (tolerance : ℚ) (st : Logs) :
    ((check_row_count_match actual_df expected_count phase_name tolerance st).1 = true ↔
      (expected_count = 0 ∨
        |(actual_df.rows.length : ℚ) - (expected_count : ℚ)| / (expected_count : ℚ) ≤
          tolerance)) ∧
    (check_row_count_match (dfN 105) 100 phase_name (5 / 100) st).1 = true ∧
    (check_row_count_match (dfN 106) 100 phase_name (5 / 100) st).1 = false := by
  have h100 : (0 : ℚ) < 100 := by norm_num
  refine ⟨?_, ?_, ?_⟩
  · constructor
    · intro h
      simp only [check_row_count_match] at h
      split_ifs at h with h0 hgt
      · exact Or.inl h0
      · exact Or.inr ((mul_le_mul_right h100).mp (not_lt.mp hgt))
    · intro h
      simp only [check_row_count_match]
      split_ifs with h0 hgt
      · rfl
      · rcases h with h | h
        · exact absurd h h0
        · exact absurd hgt (not_lt.mpr ((mul_le_mul_right h100).mpr h))
      · rfl
  · simp only [check_row_count_match, dfN]
    norm_num
  · simp only [check_row_count_match, dfN]
    norm_num

/-- C10: on an empty dataframe `check_no_duplicates` passes and leaves
the warning and error logs untouched, for every requested key-column
list (including columns absent from the dataframe): the early
`len(df) == 0` return precedes the missing-column handling. -/
theorem check_no_duplicates_empty_passes (df : DataFrame) (columns : List String)
    (phase_name : String) (st : Logs) (h : df.rows = []) :
    check_no_duplicates df columns phase_name st = (true, st) := by
  unfold check_no_duplicates
  simp [h]

/-- Witness for C10: a zero-row dataframe with a column, asked about one
present and one absent key column. -/
theorem check_no_duplicates_empty_passes_witness :
    (⟨["x"], []⟩ : DataFrame).rows = [] ∧
      check_no_duplicates ⟨["x"], []⟩ ["x", "absent_col"] "Phase 1"
        ⟨[], []⟩ = (true, ⟨[], []⟩) :=
  ⟨rfl, check_no_duplicates_empty_passes ⟨["x"], []⟩ ["x", "absent_col"] "Phase 1" ⟨[], []⟩ rfl⟩

/-- The duplicate-row count of `check_no_duplicates`, re-expressed via
key-tuple multiplicities. -/
theorem dup_count_eq (df : DataFrame) (columns : List String) :
    (dupMaskKeepFalse df columns).countP (fun b => b) =
      df.rows.countP (fun r => 2 ≤ tupleCount df columns (rowKey df columns r)) := by
  rw [dupMaskKeepFalse, List.countP_map]
  exact List.countP_congr (fun r _ => by simp [Function.comp, tupleCount])

/-- The multiplicity of a key-tuple among the rows' key-tuples is
`tupleCount` (stated at the `BEq` instance `List.nodup_iff_count_le_one`
produces). -/
theorem count_dfKeys_decEq (df : DataFrame) (columns : List String) (a : List Value) :
    @List.count (List Value) instBEqOfDecidableEq a (dfKeys df columns) =
      tupleCount df columns a := by
  rw [@List.count_eq_countP (List Value) instBEqOfDecidableEq, dfKeys, List.countP_map]
  refine List.countP_congr (fun r _ => ?_)
  simp [Function.comp]

/-- No two rows share a key-tuple iff every key-tuple occurs at most
once. -/
theorem nodup_dfKeys_iff (df : DataFrame) (columns : List String) :
    (dfKeys df columns).Nodup ↔ ∀ k, tupleCount df columns k ≤ 1 := by
  rw [List.nodup_iff_count_le_one]
  simp only [count_dfKeys_decEq]

/-- C4: with the requested key columns present, `check_no_duplicates`
passes exactly when no two rows share a key-tuple on the key columns;
when one key-tuple occurs 3 times and every other at most once, it fails
reporting a duplicate count of 3 (each involved row counts); a missing
key column on a non-empty dataframe degrades to a failed check with a
descriptive warning instead of raising. -/
theorem check_no_duplicates_spec (df : DataFrame) (columns : List String)
    (phase_name : String) (st : Logs) :
    ((∀ c ∈ columns, c ∈ df.cols) → columns ≠ [] →
      (((check_no_duplicates df columns phase_name st).1 = true ↔
          (dfKeys df columns).Nodup) ∧
        (∀ k, tupleCount df columns k = 3 →
          (∀ k', k' ≠ k → tupleCount df columns k' ≤ 1) →
          (check_no_duplicates df columns phase_name st).1 = false ∧
          ∃ ex, (check_no_duplicates df columns phase_name st).2.errors =
            st.errors ++ [Msg.dupFound phase_name 3 ex]))) ∧
    (df.rows ≠ [] → (columns.filter (fun c => c ∉ df.cols)) ≠ [] →
      check_no_duplicates df columns phase_name st =
        (false, st.warn (.dupMissingCols phase_name
          (columns.filter (fun c => c ∉ df.cols))))) := by
  constructor
  · intro hpres _hcne
    have hmiss : columns.filter (fun c => c ∉ df.cols) = [] :=
      List.filter_eq_nil_iff.mpr (fun c hc => by simp [hpres c hc])
    constructor
    · by_cases hrows : df.rows.length = 0
      · have hr : df.rows = [] := List.length_eq_zero.mp hrows
        simp [check_no_duplicates, hrows, dfKeys, hr]
      · simp only [check_no_duplicates, if_neg hrows, hmiss]
        rw [if_neg (by simp)]
        by_cases hpos : (dupMaskKeepFalse df columns).countP (fun b => b) > 0
        · rw [if_pos hpos]
          constructor
          · intro h; exact absurd h (by simp)
          · intro hnd
            exfalso
            rw [dup_count_eq] at hpos
            obtain ⟨r, _hr, hp⟩ := List.countP_pos_iff.mp hpos
            have h2 : 2 ≤ tupleCount df columns (rowKey df columns r) := by
              simpa using hp
            have h1 := (nodup_dfKeys_iff df columns).mp hnd (rowKey df columns r)
            omega
        · rw [if_neg hpos]
          constructor
          · intro _
            rw [nodup_dfKeys_iff]
            intro a
            by_cases h2 : 2 ≤ tupleCount df columns a
            · exfalso
              apply hpos
              rw [dup_count_eq]
              have hmem : ∃ r ∈ df.rows, rowKey df columns r = a := by
                have hpos2 : 0 < tupleCount df columns a := by omega
                obtain ⟨r, hr, hp⟩ := List.countP_pos_iff.mp hpos2
                exact ⟨r, hr, by simpa using hp⟩
              obtain ⟨r, hr, rfl⟩ := hmem
              apply List.countP_pos_iff.mpr
              exact ⟨r, hr, by simpa using h2⟩
            · omega
          · intro _; rfl
    · intro k h3 hothers
      have hkeysne : ¬ df.rows.length = 0 := by
        intro h0
        rw [tupleCount, List.length_eq_zero.mp h0] at h3
        simp at h3
      have hpoint : ∀ r ∈ df.rows,
          (decide (2 ≤ tupleCount df columns (rowKey df columns r)) = true ↔
            decide (rowKey df columns r = k) = true) := by
        intro r _hr
        simp only [decide_eq_true_eq]
        constructor
        · intro h2
          by_contra hne
          have := hothers (rowKey df columns r) hne
          omega
        · intro he
          rw [he, h3]
          omega
      have hcnt : (dupMaskKeepFalse df columns).countP (fun b => b) = 3 := by
        rw [dup_count_eq, List.countP_congr hpoint, ← tupleCount, h3]
      simp only [check_no_duplicates, if_neg hkeysne, hmiss]
      rw [if_neg (by simp),
        if_pos (by omega : (dupMaskKeepFalse df columns).countP (fun b => b) > 0)]
      refine ⟨rfl, ?_⟩
      rw [hcnt]
      exact ⟨_, rfl⟩
  · intro hrows hmiss
    simp only [check_no_duplicates,
      if_neg (fun h => hrows (List.length_eq_zero.mp h)), if_pos hmiss]

/-- Witness for C4: a key shared by 3 rows yields duplicate count 3 and a
failure; a duplicate-free dataframe passes; a missing key column on a
non-empty dataframe degrades to a failed check plus warning. -/
theorem check_no_duplicates_spec_witness :
    ((check_no_duplicates ⟨["k"], [[.vInt 1], [.vInt 1], [.vInt 1]]⟩ ["k"] "Phase 3"
        ⟨[], []⟩).1 = false ∧
      (∃ ex, (check_no_duplicates ⟨["k"], [[.vInt 1], [.vInt 1], [.vInt 1]]⟩ ["k"] "Phase 3"
        ⟨[], []⟩).2.errors = [] ++ [Msg.dupFound "Phase 3" 3 ex])) ∧
    (check_no_duplicates ⟨["k"], [[.vInt 1], [.vInt 2]]⟩ ["k"] "Phase 3" ⟨[], []⟩).1 = true ∧
    check_no_duplicates ⟨["k"], [[.vInt 1]]⟩ ["k", "z"] "Phase 3" ⟨[], []⟩ =
      (false, Logs.warn ⟨[], []⟩ (.dupMissingCols "Phase 3" ["z"])) := by
  refine ⟨?_, ?_, ?_⟩
  · have h := (check_no_duplicates_spec ⟨["k"], [[.vInt 1], [.vInt 1], [.vInt 1]]⟩ ["k"]
      "Phase 3" ⟨[], []⟩).1 (by decide) (by decide)
    refine h.2 [Value.vInt 1] (by decide) ?_
    intro k' hk
    have h1 : ¬ ([Value.vInt 1] = k') := fun hh => hk hh.symm
    have hX : rowKey ⟨["k"], [[Value.vInt 1], [Value.vInt 1], [Value.vInt 1]]⟩ ["k"]
        [Value.vInt 1] = [Value.vInt 1] := rfl
    simp [tupleCount, List.countP_cons, hX, h1]
  · exact ((check_no_duplicates_spec ⟨["k"], [[.vInt 1], [.vInt 2]]⟩ ["k"] "Phase 3"
      ⟨[], []⟩).1 (by decide) (by decide)).1.mpr (by decide)
  · have h := (check_no_duplicates_spec ⟨["k"], [[.vInt 1]]⟩ ["k", "z"] "Phase 3"
      ⟨[], []⟩).2 (by decide) (by decide)
    simpa using h

/-- The `expected_max` accumulator of `check_cartesian_product` is the
product of the expected unique counts of the present columns, whatever
the log state. -/
theorem cartesianFold_fst (df : DataFrame) (phase_name : String) :
    ∀ (items : List (String × Nat)) (n : Nat) (st : Logs),
      (cartesianFold df phase_name items (n, st)).1 =
        items.foldl (fun acc p => if p.1 ∈ df.cols then acc * p.2 else acc) n := by
  intro items
  induction items with
  | nil => intro n st; rfl
  | cons p ps ih =>
    intro n st
    simp only [cartesianFold, List.foldl_cons] at ih ⊢
    by_cases hp : p.1 ∈ df.cols
    · simp only [if_pos hp]
      exact ih (n * p.2) _
    · simp only [if_neg hp]
      exact ih n st

/-- The fold of `check_cartesian_product` only adds warnings: the error
log passes through unchanged. -/
theorem cartesianFold_errors (df : DataFrame) (phase_name : String) :
    ∀ (items : List (String × Nat)) (n : Nat) (st : Logs),
      (cartesianFold df phase_name items (n, st)).2.errors = st.errors := by
  intro items
  induction items with
  | nil => intro n st; rfl
  | cons p ps ih =>
    intro n st
    simp only [cartesianFold, List.foldl_cons] at ih ⊢
    by_cases hp : p.1 ∈ df.cols
    · simp only [if_pos hp]
      rw [ih]
      split_ifs <;> simp [Logs.warn]
    · simp only [if_neg hp]
      exact ih n st

/-- `check_cartesian_product` fails exactly when the row count exceeds
1.2 × the product over the *present* named columns, and then records the
error. -/
theorem check_cartesian_product_flag (df : DataFrame) (items : List (String × Nat))
    (phase_name : String) (st : Logs) :
    ((check_cartesian_product df items phase_name st).1 = false ↔
      (df.rows.length : ℚ) > (expectedMaxPresent df items : ℚ) * (6 / 5)) ∧
    ((df.rows.length : ℚ) > (expectedMaxPresent df items : ℚ) * (6 / 5) →
      (check_cartesian_product df items phase_name st).2.errors =
        st.errors ++
          [Msg.cartesianSuspected phase_name df.rows.length (expectedMaxPresent df items)]) := by
  have hfst : (cartesianFold df phase_name items (1, st)).1 = expectedMaxPresent df items :=
    cartesianFold_fst df phase_name items 1 st
  have herr : (cartesianFold df phase_name items (1, st)).2.errors = st.errors :=
    cartesianFold_errors df phase_name items 1 st
  constructor
  · simp only [check_cartesian_product, hfst]
    split_ifs with hgt
    · simpa using hgt
    · simpa using hgt
  · intro hgt
    simp only [check_cartesian_product, hfst, if_pos hgt]
    simp [Logs.err, herr]

/-- Counterexample for C6: with an absent named column ("b" not in the
dataframe), the code's bound is the product over *present* columns only
(here 2), so 3 rows are flagged even though the claim's bound
2·100 = 200 would not flag them (3 ≤ 240). -/
theorem check_cartesian_product_absent_column_cex :
    (check_cartesian_product ⟨["a"], [[.vInt 1], [.vInt 2], [.vInt 3]]⟩
      [("a", 2), ("b", 100)] "Phase 2" ⟨[], []⟩).1 = false ∧
    ¬ (((⟨["a"], [[.vInt 1], [.vInt 2], [.vInt 3]]⟩ : DataFrame).rows.length : ℚ) >
        ((2 * 100 : ℕ) : ℚ) * (6 / 5)) := by
  constructor
  · refine (check_cartesian_product_flag _ _ _ _).1.mpr ?_
    have h1 : expectedMaxPresent ⟨["a"], [[.vInt 1], [.vInt 2], [.vInt 3]]⟩
        [("a", 2), ("b", 100)] = 2 := rfl
    have h2 : (⟨["a"], [[.vInt 1], [.vInt 2], [.vInt 3]]⟩ : DataFrame).rows.length = 3 := rfl
    rw [h1, h2]
    norm_num
  · have h2 : (⟨["a"], [[.vInt 1], [.vInt 2], [.vInt 3]]⟩ : DataFrame).rows.length = 3 := rfl
    rw [h2]
    norm_num

/-- C6 (amended): `check_cartesian_product` flags a probable cartesian
product — failing the check and recording the error — exactly when the
actual row count exceeds 1.2 × the product of the supplied
expected-unique-counts of the named columns *present in the dataframe*;
with both columns present and expected counts 10 and 20 (bound 200), 250
rows are flagged and 240 rows are not. -/
theorem check_cartesian_product_spec (df : DataFrame) (items : List (String × Nat))
    (phase_name : String) (st : Logs) :
    ((check_cartesian_product df items phase_name st).1 = false ↔
      (df.rows.length : ℚ) > (expectedMaxPresent df items : ℚ) * (6 / 5)) ∧
    ((df.rows.length : ℚ) > (expectedMaxPresent df items : ℚ) * (6 / 5) →
      (check_cartesian_product df items phase_name st).2.errors =
        st.errors ++
          [Msg.cartesianSuspected phase_name df.rows.length (expectedMaxPresent df items)]) ∧
    (check_cartesian_product ⟨["a", "b"], List.replicate 250 [.vInt 1, .vInt 2]⟩
      [("a", 10), ("b", 20)] phase_name st).1 = false ∧
    (check_cartesian_product ⟨["a", "b"], List.replicate 240 [.vInt 1, .vInt 2]⟩
      [("a", 10), ("b", 20)] phase_name st).1 = true := by
  refine ⟨(check_cartesian_product_flag df items phase_name st).1,
    (check_cartesian_product_flag df items phase_name st).2, ?_, ?_⟩
  · refine (check_cartesian_product_flag _ _ _ _).1.mpr ?_
    have h1 : expectedMaxPresent ⟨["a", "b"], List.replicate 250 [Value.vInt 1, Value.vInt 2]⟩
        [("a", 10), ("b", 20)] = 200 := rfl
    have h2 : (⟨["a", "b"], List.replicate 250 [Value.vInt 1, Value.vInt 2]⟩ :
        DataFrame).rows.length = 250 := by
      exact List.length_replicate 250 [Value.vInt 1, Value.vInt 2]
    rw [h1, h2]
    norm_num
  · have hiff := (check_cartesian_product_flag
      ⟨["a", "b"], List.replicate 240 [Value.vInt 1, Value.vInt 2]⟩
      [("a", 10), ("b", 20)] phase_name st).1
    have h1 : expectedMaxPresent ⟨["a", "b"], List.replicate 240 [Value.vInt 1, Value.vInt 2]⟩
        [("a", 10), ("b", 20)] = 200 := rfl
    have h2 : (⟨["a", "b"], List.replicate 240 [Value.vInt 1, Value.vInt 2]⟩ :
        DataFrame).rows.length = 240 := by
      exact List.length_replicate 240 [Value.vInt 1, Value.vInt 2]
    rw [h1, h2] at hiff
    cases hb : (check_cartesian_product ⟨["a", "b"],
        List.replicate 240 [Value.vInt 1, Value.vInt 2]⟩
        [("a", 10), ("b", 20)] phase_name st).1
    · exfalso
      have := hiff.mp hb
      norm_num at this
    · rfl

/-- Witness for C6: the flagged 250-row instance, with the recorded error
message carrying the actual row count and the bound 200. -/
theorem check_cartesian_product_spec_witness :
    (((⟨["a", "b"], List.replicate 250 [Value.vInt 1, Value.vInt 2]⟩ :
        DataFrame).rows.length : ℚ) >
      (expectedMaxPresent ⟨["a", "b"], List.replicate 250 [Value.vInt 1, Value.vInt 2]⟩
        [("a", 10), ("b", 20)] : ℚ) * (6 / 5)) ∧
    (check_cartesian_product ⟨["a", "b"], List.replicate 250 [Value.vInt 1, Value.vInt 2]⟩
      [("a", 10), ("b", 20)] "Phase 2" ⟨[], []⟩).2.errors =
      [] ++ [Msg.cartesianSuspected "Phase 2" 250 200] := by
  have h1 : expectedMaxPresent ⟨["a", "b"], List.replicate 250 [Value.vInt 1, Value.vInt 2]⟩
      [("a", 10), ("b", 20)] = 200 := rfl
  have h2 : (⟨["a", "b"], List.replicate 250 [Value.vInt 1, Value.vInt 2]⟩ :
      DataFrame).rows.length = 250 := by
    exact List.length_replicate 250 [Value.vInt 1, Value.vInt 2]
  have hgt : (((⟨["a", "b"], List.replicate 250 [Value.vInt 1, Value.vInt 2]⟩ :
      DataFrame).rows.length : ℚ) >
      (expectedMaxPresent ⟨["a", "b"], List.replicate 250 [Value.vInt 1, Value.vInt 2]⟩
        [("a", 10), ("b", 20)] : ℚ) * (6 / 5)) := by
    rw [h1, h2]
    norm_num
  refine ⟨hgt, ?_⟩
  have h := (check_cartesian_product_spec
    ⟨["a", "b"], List.replicate 250 [Value.vInt 1, Value.vInt 2]⟩
    [("a", 10), ("b", 20)] "Phase 2" ⟨[], []⟩).2.1 hgt
  rw [h1, h2] at h
  exact h

/-- Characterisation of the strict-format body: `NCT` followed by exactly
8 ASCII digits. -/
theorem isNctStrictChars_iff (l : List Char) :
    isNctStrictChars l = true ↔
      ∃ d : List Char, (∀ c ∈ d, c.isDigit) ∧ d.length = 8 ∧
        l = 'N' :: 'C' :: 'T' :: d := by
  rcases l with _ | ⟨c1, _ | ⟨c2, _ | ⟨c3, rest⟩⟩⟩
  · simp [isNctStrictChars]
  · simp [isNctStrictChars]
  · simp [isNctStrictChars]
  · simp only [isNctStrictChars, Bool.and_eq_true, decide_eq_true_eq, List.all_eq_true]
    constructor
    · rintro ⟨⟨⟨⟨h1, h2⟩, h3⟩, h4⟩, h5⟩
      exact ⟨rest, fun c hc => h5 c hc, h4, by rw [h1, h2, h3]⟩
    · rintro ⟨d, hd, hl, heq⟩
      obtain ⟨rfl, rfl, rfl, rfl⟩ : c1 = 'N' ∧ c2 = 'C' ∧ c3 = 'T' ∧ rest = d := by
        simpa using heq
      exact ⟨⟨⟨⟨rfl, rfl⟩, rfl⟩, hl⟩, fun c hc => hd c hc⟩

/-- Characterisation of `re.match(r"^NCT\d{8}$", s)`: `NCT` + 8 digits,
with Python's `$` also accepting one trailing newline. -/
theorem pyMatchNct8_iff (s : String) :
    pyMatchNct8 s = true ↔
      ∃ d : List Char, (∀ c ∈ d, c.isDigit) ∧ d.length = 8 ∧
        (s.data = 'N' :: 'C' :: 'T' :: d ∨
          s.data = 'N' :: 'C' :: 'T' :: d ++ ['\n']) := by
  rcases List.eq_nil_or_concat s.data with hnil | ⟨l2, a, hconc⟩
  · rw [pyMatchNct8, hnil]
    simp [isNctStrictChars]
  · simp only [List.concat_eq_append] at hconc
    rw [pyMatchNct8, hconc]
    rw [List.getLast?_concat, List.dropLast_concat]
    simp only [Bool.or_eq_true, Bool.and_eq_true, decide_eq_true_eq]
    constructor
    · rintro (h | ⟨hnl, h⟩)
      · obtain ⟨d, hd, hl, heq⟩ := (isNctStrictChars_iff _).mp h
        exact ⟨d, hd, hl, Or.inl heq⟩
      · obtain ⟨d, hd, hl, heq⟩ := (isNctStrictChars_iff _).mp h
        refine ⟨d, hd, hl, Or.inr ?_⟩
        rw [heq, hnl]
    · rintro ⟨d, hd, hl, heq | heq⟩
      · exact Or.inl ((isNctStrictChars_iff _).mpr ⟨d, hd, hl, heq⟩)
      · right
        have h1 : l2 = 'N' :: 'C' :: 'T' :: d ∧ a = '\n' := by
          have h2 : l2 ++ [a] = ('N' :: 'C' :: 'T' :: d) ++ ['\n'] := by simpa using heq
          obtain ⟨hx, hy⟩ := List.append_inj' h2 rfl
          exact ⟨hx, by simpa using hy⟩
        exact ⟨h1.2, (isNctStrictChars_iff _).mpr ⟨d, hd, hl, h1.1⟩⟩

/-- Counterexample for C9: the non-missing value `"NCT01234567\n"` is not
of the form three-letter prefix + 8 digits, yet `validate_phase4`'s
format check (`str.match(r'^NCT\d{8}$')`) counts it valid and passes —
Python's `$` matches before a trailing newline. -/
theorem validate_phase4_format_newline_cex :
    (check_column_values ⟨["nct_number"], [[.vStr "NCT01234567\n"]]⟩ "nct_number"
      pyMatchNct8 "Phase 4" ⟨[], []⟩) = (true, ⟨[], []⟩) ∧
    isNctStrictChars ("NCT01234567\n".data) = false := by
  exact ⟨rfl, rfl⟩

/-- C9 (amended): `validate_phase4`'s identifier-format check passes a
non-missing value exactly when its string form is `NCT` + 8 digits,
optionally followed by one trailing newline (Python `$` anchoring); the
check as a whole passes iff every non-missing value is of that form, and
otherwise counts every offending value as invalid and records one
warning carrying that count. -/
theorem validate_phase4_format_spec (df : DataFrame) (st : Logs)
    (h : "nct_number" ∈ df.cols) :
    (((check_column_values df "nct_number" pyMatchNct8 "Phase 4" st).1 = true) ↔
      ∀ v ∈ df.colVals "nct_number", v ≠ .na → pyMatchNct8 (pyStr v) = true) ∧
    (∀ s : String, pyMatchNct8 s = true ↔
      ∃ d : List Char, (∀ c ∈ d, c.isDigit) ∧ d.length = 8 ∧
        (s.data = 'N' :: 'C' :: 'T' :: d ∨
          s.data = 'N' :: 'C' :: 'T' :: d ++ ['\n'])) ∧
    ((check_column_values df "nct_number" pyMatchNct8 "Phase 4" st).1 = false →
      ∃ ex, (check_column_values df "nct_number" pyMatchNct8 "Phase 4" st).2.warnings =
        st.warnings ++ [Msg.invalidColValues "Phase 4" "nct_number"
          ((df.colVals "nct_number").countP
            (fun v => v ≠ .na ∧ ¬ pyMatchNct8 (pyStr v))) ex]) := by
  have hnot : ¬ ("nct_number" ∉ df.cols) := fun hn => hn h
  refine ⟨?_, pyMatchNct8_iff, ?_⟩
  · unfold check_column_values
    rw [if_neg hnot]
    by_cases hpos :
        ((df.colVals "nct_number").filter
          (fun v => v ≠ .na ∧ ¬ pyMatchNct8 (pyStr v))).length > 0
    · rw [if_pos hpos]
      constructor
      · intro hh; exact absurd hh (by simp)
      · intro hall
        exfalso
        have hnil : (df.colVals "nct_number").filter
            (fun v => v ≠ .na ∧ ¬ pyMatchNct8 (pyStr v)) = [] := by
          refine List.filter_eq_nil_iff.mpr (fun v hv => ?_)
          simp only [decide_eq_true_eq, not_and, not_not]
          intro hna
          exact hall v hv hna
        rw [hnil] at hpos
        simp at hpos
    · rw [if_neg hpos]
      constructor
      · intro _ v hv hna
        have hnil : (df.colVals "nct_number").filter
            (fun v => v ≠ .na ∧ ¬ pyMatchNct8 (pyStr v)) = [] := by
          cases hfil : (df.colVals "nct_number").filter
              (fun v => v ≠ .na ∧ ¬ pyMatchNct8 (pyStr v)) with
          | nil => rfl
          | cons x xs =>
            have hgt : ((df.colVals "nct_number").filter
                (fun v => v ≠ .na ∧ ¬ pyMatchNct8 (pyStr v))).length > 0 := by
              rw [hfil]; simp
            exact absurd hgt hpos
        have hv2 := List.filter_eq_nil_iff.mp hnil v hv
        simp only [decide_eq_true_eq, not_and, not_not] at hv2
        exact hv2 hna
      · intro _; rfl
  · intro hfail
    unfold check_column_values at hfail ⊢
    rw [if_neg hnot] at hfail ⊢
    by_cases hpos :
        ((df.colVals "nct_number").filter
          (fun v => v ≠ .na ∧ ¬ pyMatchNct8 (pyStr v))).length > 0
    · rw [if_pos hpos]
      rw [← List.countP_eq_length_filter]
      exact ⟨_, rfl⟩
    · rw [if_neg hpos] at hfail
      simp at hfail

/-- Witness for C9 (amended): the wrong-digit-count value `"NCT123"`
is counted invalid and yields the warning with invalid count 1. -/
theorem validate_phase4_format_spec_witness :
    ("nct_number" ∈ (⟨["nct_number"], [[Value.vStr "NCT123"]]⟩ : DataFrame).cols) ∧
    ∃ ex, (check_column_values ⟨["nct_number"], [[Value.vStr "NCT123"]]⟩ "nct_number"
        pyMatchNct8 "Phase 4" ⟨[], []⟩).2.warnings =
      [] ++ [Msg.invalidColValues "Phase 4" "nct_number"
        (((⟨["nct_number"], [[Value.vStr "NCT123"]]⟩ : DataFrame).colVals
            "nct_number").countP (fun v => v ≠ .na ∧ ¬ pyMatchNct8 (pyStr v))) ex] := by
  refine ⟨by decide, ?_⟩
  exact (validate_phase4_format_spec ⟨["nct_number"], [[Value.vStr "NCT123"]]⟩ ⟨[], []⟩
    (by decide)).2.2 rfl

/-- Upper-casing leaves ASCII digits unchanged. -/
theorem toUpper_of_isDigit (c : Char) (h : c.isDigit = true) : c.toUpper = c := by
  rw [Char.isDigit, Bool.and_eq_true] at h
  obtain ⟨_h1, h2⟩ := h
  rw [decide_eq_true_eq] at h2
  rw [Char.toUpper, if_neg]
  rintro ⟨h97, _⟩
  have hle : c.val.toNat ≤ (57 : UInt32).toNat := h2
  have h57 : (57 : UInt32).toNat = 57 := rfl
  rw [Char.toNat] at h97
  omega

/-- Every output of the `seen`/`uniq` loop comes from the input list. -/
theorem dedupSeen_sub (l : List String) :
    ∀ (seen : List String) (x : String), x ∈ dedupSeen seen l → x ∈ l := by
  induction l with
  | nil => intro seen x hx; simp [dedupSeen] at hx
  | cons n ns ih =>
    intro seen x hx
    rw [dedupSeen] at hx
    split_ifs at hx with hmem
    · exact List.mem_cons_of_mem n (ih seen x hx)
    · rcases List.mem_cons.mp hx with rfl | hx
      · exact List.mem_cons_self x ns
      · exact List.mem_cons_of_mem n (ih (n :: seen) x hx)

/-- No output of the `seen`/`uniq` loop is in the `seen` accumulator. -/
theorem dedupSeen_notin (l : List String) :
    ∀ (seen : List String) (x : String), x ∈ dedupSeen seen l → x ∉ seen := by
  induction l with
  | nil => intro seen x hx; simp [dedupSeen] at hx
  | cons n ns ih =>
    intro seen x hx
    rw [dedupSeen] at hx
    split_ifs at hx with hmem
    · exact ih seen x hx
    · rcases List.mem_cons.mp hx with rfl | hx
      · exact hmem
      · intro hseen
        exact ih (n :: seen) x hx (List.mem_cons_of_mem n hseen)

/-- The `seen`/`uniq` loop of `_parse_ncts_from_row` produces a list
without duplicates. -/
theorem dedupSeen_nodup (l : List String) :
    ∀ (seen : List String), (dedupSeen seen l).Nodup := by
  induction l with
  | nil => intro seen; simp [dedupSeen]
  | cons n ns ih =>
    intro seen
    rw [dedupSeen]
    split_ifs with hmem
    · exact ih seen
    · refine List.nodup_cons.mpr ⟨?_, ih (n :: seen)⟩
      intro hx
      exact dedupSeen_notin ns (n :: seen) n hx (List.mem_cons_self n seen)

/-- Every match emitted by the `\bNCT\d{8}\b` scanner upper-cases to the
strict `NCT` + 8 digits shape. -/
theorem findAllNct_strict (l : List Char) :
    ∀ (skip : Nat) (pw : Bool) (m : List Char),
      m ∈ findAllNct skip pw l → isNctStrictChars (m.map Char.toUpper) = true := by
  induction l with
  | nil =>
    intro skip pw m hm
    simp [findAllNct] at hm
  | cons c cs ih =>
    intro skip pw m hm
    cases skip with
    | succ s =>
      rw [findAllNct] at hm
      exact ih s true m hm
    | zero =>
      rw [findAllNct] at hm
      by_cases hcond : (!pw && nctHereOk (c :: cs)) = true
      · rw [if_pos hcond] at hm
        have hok : nctHereOk (c :: cs) = true := by
          simp only [Bool.and_eq_true] at hcond
          exact hcond.2
        rcases List.mem_cons.mp hm with rfl | htail
        · rcases cs with _ | ⟨c2, cs2⟩
          · simp [nctHereOk] at hok
          rcases cs2 with _ | ⟨c3, rest⟩
          · simp [nctHereOk] at hok
          simp only [nctHereOk, Bool.and_eq_true, Bool.or_eq_true, decide_eq_true_eq] at hok
          obtain ⟨⟨⟨hc1, hc2⟩, hc3⟩, ⟨hlen, hdig⟩, _⟩ := hok
          have hN : c.toUpper = 'N' := by rcases hc1 with rfl | rfl <;> decide
          have hC : c2.toUpper = 'C' := by rcases hc2 with rfl | rfl <;> decide
          have hT : c3.toUpper = 'T' := by rcases hc3 with rfl | rfl <;> decide
          have hm11 : (c :: c2 :: c3 :: rest).take 11 =
              c :: c2 :: c3 :: rest.take 8 := rfl
          rw [hm11]
          simp only [List.map_cons, hN, hC, hT]
          refine (isNctStrictChars_iff _).mpr ⟨(rest.take 8).map Char.toUpper, ?_, ?_, rfl⟩
          · intro x hx
            obtain ⟨d, hd, rfl⟩ := List.mem_map.mp hx
            have hdd := List.all_eq_true.mp hdig d hd
            rw [toUpper_of_isDigit d hdd]
            exact hdd
          · rw [List.length_map]
            exact hlen
        · exact ih 10 true m htail
      · rw [if_neg hcond] at hm
        exact ih 0 (isWordChar c) m hm

/-- C7: the derived trial-identifier list of `_parse_ncts_from_row` is
deduplicated (order of first appearance), every entry is an upper-cased
strict `NCT` + 8-digit identifier; the repeated-mention text yields
exactly `["NCT01234567"]`, a lower-case mention is normalised to upper
case, `"NCT123"` (wrong digit count) yields no identifiers, and the
raw-field check marks that row suspicious, recording the
malformed-pattern warning. -/
theorem parse_ncts_from_row_spec (df : DataFrame) (row : List Value) (st : Logs) :
    (parse_ncts_from_row df row).Nodup ∧
    (∀ s ∈ parse_ncts_from_row df row, isNctStrictChars s.data = true) ∧
    parse_ncts_from_row ⟨["all_nct_numbers"],
      [[Value.vStr "see NCT01234567 and also NCT01234567 again"]]⟩
      [Value.vStr "see NCT01234567 and also NCT01234567 again"] = ["NCT01234567"] ∧
    parse_ncts_from_row ⟨["nct_number"], [[Value.vStr "nct00000001"]]⟩
      [Value.vStr "nct00000001"] = ["NCT00000001"] ∧
    parse_ncts_from_row ⟨["guideline_pmid", "ref_pmid", "nct_number"],
      [[Value.vInt 1, Value.vInt 2, Value.vStr "NCT123"]]⟩
      [Value.vInt 1, Value.vInt 2, Value.vStr "NCT123"] = [] ∧
    p3_suspicious_block ⟨["guideline_pmid", "ref_pmid", "nct_number"],
      [[Value.vInt 1, Value.vInt 2, Value.vStr "NCT123"]]⟩ st =
      ([false], st.warn (.suspiciousNct "Phase 3" 1)) := by
  refine ⟨?_, ?_, ?_, ?_, ?_, ?_⟩
  · simp only [parse_ncts_from_row]
    split_ifs <;> first
      | exact List.nodup_nil
      | exact dedupSeen_nodup _ []
  · intro s hs
    simp only [parse_ncts_from_row] at hs
    split_ifs at hs
    all_goals
      first
      | (have hf := dedupSeen_sub _ [] s hs
         obtain ⟨m, hm, rfl⟩ := List.mem_map.mp hf
         exact findAllNct_strict _ _ _ _ hm)
      | simp at hs
  · rfl
  · rfl
  · rfl
  · rfl

/-- The clinical-trial-rate block only warns: errors pass through. -/
theorem p3_ct_pct_block_errors (p3 : DataFrame) (st : Logs) :
    (p3_ct_pct_block p3 st).2.errors = st.errors := by
  simp only [p3_ct_pct_block]
  split_ifs <;> simp [Logs.warn]

/-- The suspicious-NCT block only warns: errors pass through. -/
theorem p3_suspicious_block_errors (p3 : DataFrame) (st : Logs) :
    (p3_suspicious_block p3 st).2.errors = st.errors := by
  simp only [p3_suspicious_block]
  split_ifs <;> simp [Logs.warn]

/-- The within-PMID duplicate-NCT block only warns: errors pass
through. -/
theorem p3_exploded_block_errors (p3 : DataFrame) (st : Logs) :
    (p3_exploded_block p3 st).2.errors = st.errors := by
  simp only [p3_exploded_block]
  split_ifs <;> simp [Logs.warn]

/-- Every `validate_phase3` block after the citation-ratio check records
warnings at most: the error log is unchanged by them. -/
theorem p3_post_ratio_errors (p3 : DataFrame) (st : Logs) :
    (p3_post_ratio p3 st).2.errors = st.errors := by
  simp only [p3_post_ratio]
  rw [p3_exploded_block_errors, p3_suspicious_block_errors, p3_ct_pct_block_errors]

/-- C8: whenever the citation ratio `len(tmp) / unique_refs` computed by
`validate_phase3` is below 1.0 (and the required columns are present so
the check is reached), the ratio error is recorded in the shared error
log and the validator returns `False`. -/
theorem validate_phase3_ratio_error (phase3_df phase2_df : DataFrame) (st : Logs)
    (h1 : "guideline_pmid" ∈ phase3_df.cols) (h2 : "ref_pmid" ∈ phase3_df.cols)
    (hr : citationRatioQ phase3_df < 1) :
    Msg.citationRatioBad "Phase 3" (citationRatioQ phase3_df) ∈
      (validate_phase3 phase3_df phase2_df st).2.errors ∧
    (validate_phase3 phase3_df phase2_df st).1 = false := by
  have hmiss : (["guideline_pmid", "ref_pmid"] : List String).filter
      (fun c => c ∉ phase3_df.cols) = [] := by
    simp [h1, h2]
  simp only [validate_phase3, hmiss]
  rw [if_neg (fun hne => hne rfl)]
  simp only [p3_ratio_check]
  rw [if_pos hr]
  simp only [Prod.fst, Prod.snd]
  constructor
  · rw [p3_post_ratio_errors]
    simp [Logs.err]
  · have hB : (p3_post_ratio phase3_df ((p3_pre_ratio phase3_df phase2_df st).2.err
        (Msg.citationRatioBad "Phase 3" (citationRatioQ phase3_df)))).2.errors.isEmpty
        = false := by
      rw [p3_post_ratio_errors]
      simp [Logs.err]
    rw [hB, Bool.and_false]

/-- Witness for C8: a one-row phase-3 table whose only `ref_pmid` is
missing has `unique_refs = 0`, hence ratio 0 < 1.0: the ratio error is
recorded and the validator fails. -/
theorem validate_phase3_ratio_error_witness :
    citationRatioQ ⟨["guideline_pmid", "ref_pmid"], [[Value.vInt 1, Value.na]]⟩ < 1 ∧
    Msg.citationRatioBad "Phase 3"
      (citationRatioQ ⟨["guideline_pmid", "ref_pmid"], [[Value.vInt 1, Value.na]]⟩) ∈
      (validate_phase3 ⟨["guideline_pmid", "ref_pmid"], [[Value.vInt 1, Value.na]]⟩
        ⟨["ref_pmid"], []⟩ ⟨[], []⟩).2.errors ∧
    (validate_phase3 ⟨["guideline_pmid", "ref_pmid"], [[Value.vInt 1, Value.na]]⟩
      ⟨["ref_pmid"], []⟩ ⟨[], []⟩).1 = false := by
  have hr : citationRatioQ ⟨["guideline_pmid", "ref_pmid"], [[Value.vInt 1, Value.na]]⟩ < 1 := by
    have h0 : citationRatioQ ⟨["guideline_pmid", "ref_pmid"],
        [[Value.vInt 1, Value.na]]⟩ = 0 := rfl
    rw [h0]
    norm_num
  have h := validate_phase3_ratio_error ⟨["guideline_pmid", "ref_pmid"],
    [[Value.vInt 1, Value.na]]⟩ ⟨["ref_pmid"], []⟩ ⟨[], []⟩ (by decide) (by decide) hr
  exact ⟨hr, h.1, h.2⟩

/-- An `Except` bind that produced `ok` had an `ok` on the left. -/
theorem exceptBind_ok {α β : Type} {x : Except String α} {k : α → Except String β}
    {b : β} (h : (x >>= k) = Except.ok b) : ∃ a, x = Except.ok a ∧ k a = Except.ok b := by
  cases x with
  | error e => simp [Bind.bind, Except.bind] at h
  | ok a => exact ⟨a, rfl, by simpa [Bind.bind, Except.bind] using h⟩

/-- `pd.read_csv` only succeeds on a file that exists. -/
theorem read_csv_ok {env : Env} {p : String} {a : DataFrame}
    (h : read_csv env p = Except.ok a) : env p ≠ none := by
  intro hnone
  rw [read_csv, hnone] at h
  exact Except.noConfusion h

/-- If the loading block succeeds, every required phase file exists. -/
theorem loadPhases_ok_present (env : Env) (d : PhaseData)
    (hok : loadPhases env = Except.ok d) :
    ∀ f ∈ requiredFiles, env f ≠ none := by
  intro f hf
  rw [loadPhases] at hok
  obtain ⟨a1, ha1, hok⟩ := exceptBind_ok hok
  obtain ⟨a2, ha2, hok⟩ := exceptBind_ok hok
  obtain ⟨a3, ha3, hok⟩ := exceptBind_ok hok
  obtain ⟨a4, ha4, hok⟩ := exceptBind_ok hok
  obtain ⟨a5, ha5, hok⟩ := exceptBind_ok hok
  obtain ⟨a6, ha6, hok⟩ := exceptBind_ok hok
  obtain ⟨a7, ha7, hok⟩ := exceptBind_ok hok
  obtain ⟨a8, ha8, hok⟩ := exceptBind_ok hok
  simp only [requiredFiles, List.mem_cons, List.not_mem_nil, or_false] at hf
  rcases hf with rfl | rfl | rfl | rfl | rfl | rfl | rfl | rfl
  · exact read_csv_ok ha1
  · exact read_csv_ok ha2
  · exact read_csv_ok ha3
  · exact read_csv_ok ha4
  · exact read_csv_ok ha5
  · exact read_csv_ok ha6
  · exact read_csv_ok ha7
  · exact read_csv_ok ha8

/-- Counterexample for C1: with every required phase file absent,
`run_all_validations` returns the ordinary value `(False, {})` — the
`FileNotFoundError` is caught by the internal `except` handler, so no
exception surfaces to the caller (the `Except.error` outcome that models
an escaping exception is impossible here). -/
theorem run_all_validations_catches_cex :
    run_all_validations (fun _ => none) = Except.ok (false, []) ∧
    ∀ e, run_all_validations (fun _ => none) ≠ Except.error e := by
  have h1 : run_all_validations (fun _ => none) = Except.ok (false, []) := rfl
  exact ⟨h1, fun e h => by rw [h1] at h; exact Except.noConfusion h⟩

/-- C1 (amended): if any required phase output file is absent when
`run_all_validations` starts, the `FileNotFoundError` raised by the load
is caught by the function's own `except FileNotFoundError` handler,
which makes the run abort immediately returning `(False, {})` — failure
with no partial per-phase results, and no exception propagating to the
caller. -/
theorem run_all_validations_missing_file (env : Env)
    (h : ∃ f ∈ requiredFiles, env f = none) :
    run_all_validations env = Except.ok (false, []) := by
  obtain ⟨f, hf, hnone⟩ := h
  cases hE : loadPhases env with
  | error e => simp [run_all_validations, hE]
  | ok d => exact absurd hnone (loadPhases_ok_present env d hE f hf)

/-- Witness for C1 (amended): a store holding only the phase-1 file (the
phase-2 file is missing). -/
theorem run_all_validations_missing_file_witness :
    (∃ f ∈ requiredFiles,
      (fun p => if p = outPath "phase1_pubmed_guidelines.csv" then
        some (⟨[], []⟩ : DataFrame) else none) f = none) ∧
    run_all_validations (fun p => if p = outPath "phase1_pubmed_guidelines.csv" then
      some (⟨[], []⟩ : DataFrame) else none) = Except.ok (false, []) := by
  have hex : ∃ f ∈ requiredFiles,
      (fun p => if p = outPath "phase1_pubmed_guidelines.csv" then
        some (⟨[], []⟩ : DataFrame) else none) f = none := by
    refine ⟨outPath "phase2_crossref_guidelines_and_references.csv", ?_, ?_⟩
    · simp [requiredFiles]
    · simp [outPath, OUTPUT_FOLDER]
  exact ⟨hex, run_all_validations_missing_file _ hex⟩

/-- Digits below 10 render to ASCII digit characters. -/
theorem digitChar_isDigit (d : Nat) (h : d < 10) : (Nat.digitChar d).isDigit = true := by
  interval_cases d <;> decide

/-- Rendering then reading back a single digit is the identity. -/
theorem digitChar_val (d : Nat) (h : d < 10) : (Nat.digitChar d).toNat - 48 = d := by
  interval_cases d <;> decide

/-- Every character of `str(n)` is an ASCII digit. -/
theorem natRender_digits (n : Nat) : ∀ c ∈ natRender n, c.isDigit = true := by
  intro c hc
  rw [natRender] at hc
  split_ifs at hc with h0
  · simp only [List.mem_singleton] at hc
    subst hc
    decide
  · rw [List.mem_reverse] at hc
    obtain ⟨d, hd, rfl⟩ := List.mem_map.mp hc
    exact digitChar_isDigit d (Nat.digits_lt_base (by norm_num) hd)

/-- `str(n)` is never empty. -/
theorem natRender_ne_nil (n : Nat) : natRender n ≠ [] := by
  rw [natRender]
  split_ifs with h0
  · simp
  · simp only [ne_eq, List.reverse_eq_nil_iff, List.map_eq_nil_iff]
    exact Nat.digits_ne_nil_iff_ne_zero.mpr h0

/-- Every character of the zero-padded rendering is an ASCII digit. -/
theorem zfill5_digits (n : Nat) : ∀ ch ∈ zfill5 (natRender n), ch.isDigit = true := by
  intro ch hch
  rw [zfill5] at hch
  rcases List.mem_append.mp hch with h | h
  · rw [List.eq_of_mem_replicate h]
    decide
  · exact natRender_digits n ch h

/-- Leading zeros do not change the accumulated value of `int(...)`. -/
theorem foldl_parse_replicate (k : Nat) :
    (List.replicate k '0').foldl (fun a c => 10 * a + (c.toNat - 48)) 0 = 0 := by
  induction k with
  | zero => rfl
  | succ k ih =>
    rw [List.replicate_succ, List.foldl_cons]
    exact ih

/-- Reading rendered digit characters equals folding the digits
themselves. -/
theorem foldr_digits_val (L : List Nat) (hL : ∀ d ∈ L, d < 10) :
    (L.map Nat.digitChar).foldr (fun c a => 10 * a + (c.toNat - 48)) 0 =
      L.foldr (fun d a => 10 * a + d) 0 := by
  induction L with
  | nil => rfl
  | cons d L ih =>
    simp only [List.map_cons, List.foldr_cons]
    rw [ih (fun x hx => hL x (List.mem_cons_of_mem d hx)),
      digitChar_val d (hL d (List.mem_cons_self d L))]

/-- The most-significant-first fold computes `Nat.ofDigits` of the
little-endian digit list. -/
theorem foldr_eq_ofDigits (L : List Nat) :
    L.foldr (fun d a => 10 * a + d) 0 = Nat.ofDigits 10 L := by
  induction L with
  | nil => simp [Nat.ofDigits]
  | cons d L ih =>
    rw [List.foldr_cons, ih, Nat.ofDigits_cons]
    ring

/-- `int(f'{n:05d}') == n`: parsing the zero-padded rendering recovers
the cursor. -/
theorem parseNat_zfill_natRender (n : Nat) :
    parseNat (zfill5 (natRender n)) = some n := by
  rw [parseNat, if_pos]
  · congr 1
    rw [zfill5, List.foldl_append, foldl_parse_replicate, natRender]
    split_ifs with h0
    · subst h0
      rfl
    · rw [List.foldl_reverse]
      have hstep : (List.foldr (fun x y => 10 * y + (x.toNat - 48)) 0
            ((Nat.digits 10 n).map Nat.digitChar)) =
          (Nat.digits 10 n).foldr (fun d a => 10 * a + d) 0 :=
        foldr_digits_val (Nat.digits 10 n)
          (fun d hd => Nat.digits_lt_base (by norm_num) hd)
      rw [hstep, foldr_eq_ofDigits, Nat.ofDigits_digits]
  · refine ⟨?_, ?_⟩
    · rw [zfill5]
      intro h
      exact natRender_ne_nil n (List.append_eq_nil.mp h).2
    · rw [List.all_eq_true]
      exact zfill5_digits n

/-- `str.replace` consumes a leading occurrence of the pattern. -/
theorem replaceAll_head_match (p : Char) (pr rep t : List Char) :
    replaceAll p pr rep ((p :: pr) ++ t) = rep ++ replaceAll p pr rep t := by
  rw [List.cons_append, replaceAll, if_pos, List.drop_left]
  rw [List.isPrefixOf_iff_prefix]
  exact ⟨t, by rw [List.cons_append]⟩

/-- `str.replace` is the identity on a string in which the pattern
occurs nowhere. -/
theorem replaceAll_of_no_prefix (p : Char) (pr rep : List Char) :
    ∀ s : List Char, (∀ i, ¬ (p :: pr) <+: s.drop i) → replaceAll p pr rep s = s := by
  intro s
  induction s with
  | nil => intro _; rw [replaceAll]
  | cons c cs ih =>
    intro h
    have hnot : ¬ ((p :: pr).isPrefixOf (c :: cs) = true) := by
      intro hb
      exact h 0 (by simpa using List.isPrefixOf_iff_prefix.mp hb)
    rw [replaceAll, if_neg hnot,
      ih (fun i hi => h (i + 1) (by simpa [List.drop_succ_cons] using hi))]

/-- `str.replace` removes a trailing occurrence of the pattern after a
stretch of characters that cannot start it. -/
theorem replaceAll_append_pat (p : Char) (pr rep : List Char) :
    ∀ d : List Char, (∀ c ∈ d, c ≠ p) →
      replaceAll p pr rep (d ++ (p :: pr)) = d ++ rep := by
  intro d
  induction d with
  | nil =>
    intro _
    simp [replaceAll]
  | cons c cs ih =>
    intro h
    have hc : c ≠ p := h c (List.mem_cons_self c cs)
    have hnot : ¬ ((p :: pr).isPrefixOf (c :: (cs ++ (p :: pr))) = true) := by
      intro hb
      obtain ⟨t, ht⟩ := List.isPrefixOf_iff_prefix.mp hb
      simp only [List.cons_append, List.cons.injEq] at ht
      exact hc ht.1.symm
    rw [List.cons_append, replaceAll, if_neg hnot,
      ih (fun x hx => h x (List.mem_cons_of_mem c hx)), List.cons_append]

/-- The prefix pattern `'phase1_checkpoint_batch_'` occurs nowhere in the
remainder `f'{n:05d}.pkl'` of a checkpoint filename, so the first
`replace` touches only the leading occurrence. -/
theorem no_pre_in_padded (n : Nat) :
    ∀ i, ¬ ('p' :: "hase1_checkpoint_batch_".data) <+:
      ((zfill5 (natRender n) ++ ".pkl".data).drop i) := by
  intro i hpre
  have hlen := hpre.length_le
  have hlenPRE : ('p' :: "hase1_checkpoint_batch_".data).length = 24 := rfl
  have h4 : (".pkl".data : List Char).length = 4 := rfl
  by_cases hi : i < (zfill5 (natRender n)).length
  · have hdrop : (zfill5 (natRender n) ++ ".pkl".data).drop i =
        (zfill5 (natRender n)).drop i ++ ".pkl".data :=
      List.drop_append_of_le_length (le_of_lt hi)
    obtain ⟨t, ht⟩ := hpre
    have h1 : ((zfill5 (natRender n) ++ ".pkl".data).drop i).head? = some 'p' := by
      rw [← ht]
      rfl
    have hne : (zfill5 (natRender n)).drop i ≠ [] := by
      intro hnil
      have := congrArg List.length hnil
      simp only [List.length_drop, List.length_nil] at this
      omega
    rw [hdrop, List.head?_append_of_ne_nil _ hne, List.head?_drop] at h1
    have hmem : 'p' ∈ zfill5 (natRender n) := List.getElem?_mem h1
    have := zfill5_digits n 'p' hmem
    exact absurd this (by decide)
  · have hlend : ((zfill5 (natRender n) ++ ".pkl".data).drop i).length =
        (zfill5 (natRender n)).length + 4 - i := by
      rw [List.length_drop, List.length_append, h4]
    rw [hlenPRE, hlend] at hlen
    omega

/-- The cursor-extraction expression of `load_phase1_checkpoint` strips a
checkpoint filename down to its zero-padded digits. -/
theorem stripName_pklName (c : Nat) :
    stripName (pklNameChars c) = zfill5 (natRender c) := by
  have hPRE : ("phase1_checkpoint_batch_".data : List Char) =
      'p' :: "hase1_checkpoint_batch_".data := rfl
  have hSUF : (".pkl".data : List Char) = '.' :: "pkl".data := rfl
  rw [stripName, pklNameChars, hPRE, List.append_assoc, replaceAll_head_match,
    replaceAll_of_no_prefix _ _ _ _ (no_pre_in_padded c), List.nil_append, hSUF,
    replaceAll_append_pat _ _ _ _
      (fun ch hch heq => by
        have := zfill5_digits c ch hch
        rw [heq] at this
        exact absurd this (by decide)),
    List.append_nil]

/-- `int(x.replace('phase1_checkpoint_batch_', '').replace('.pkl', ''))`
recovers the cursor embedded in a checkpoint filename. -/
theorem parseKey_pklName (c : Nat) : parseKey (pklNameChars c) = c := by
  rw [parseKey, stripName_pklName, parseNat_zfill_natRender]
  rfl

/-- Distinct cursors produce distinct checkpoint filenames. -/
theorem pklNameChars_inj {a b : Nat} (h : pklNameChars a = pklNameChars b) :
    a = b := by
  have h2 := congrArg parseKey h
  rwa [parseKey_pklName, parseKey_pklName] at h2

/-- Every `.pkl` checkpoint filename passes the listing filter of
`load_phase1_checkpoint`. -/
theorem isCkptName_pklName (c : Nat) : isCkptName (pklNameChars c) = true := by
  simp only [isCkptName, startsWithL, endsWithL, Bool.and_eq_true,
    List.isPrefixOf_iff_prefix, List.isSuffixOf_iff_suffix]
  constructor
  · rw [pklNameChars, List.append_assoc]
    exact List.prefix_append _ _
  · rw [pklNameChars]
    exact List.suffix_append _ _

/-- The CSV mirror written by `save_phase1_checkpoint` fails the
`.endswith('.pkl')` filter of `load_phase1_checkpoint`. -/
theorem isCkptName_csvName (c : Nat) : isCkptName (csvNameChars c) = false := by
  rw [Bool.eq_false_iff]
  intro h
  simp only [isCkptName, startsWithL, endsWithL, Bool.and_eq_true,
    List.isPrefixOf_iff_prefix, List.isSuffixOf_iff_suffix] at h
  obtain ⟨-, t, ht⟩ := h
  have hpkl : (".pkl".data : List Char) ≠ [] := by decide
  have hcsv : (".csv".data : List Char) ≠ [] := by decide
  have h1 : (t ++ ".pkl".data).getLast? = some 'l' := by
    rw [List.getLast?_append_of_ne_nil _ hpkl]
    rfl
  have h2 : (csvNameChars c).getLast? = some 'v' := by
    rw [csvNameChars, List.getLast?_append_of_ne_nil _ hcsv]
    rfl
  rw [ht, h2] at h1
  exact absurd h1 (by decide)

/-- A checkpoint filename never collides with a CSV mirror filename. -/
theorem pklName_ne_csvName (a b : Nat) : pklNameChars a ≠ csvNameChars b := by
  intro h
  have h1 := isCkptName_pklName a
  rw [h, isCkptName_csvName] at h1
  exact Bool.noConfusion h1

/-- The file just written is in the directory. -/
theorem fsWrite_self (fs : Phase1Dir) (n : List Char) (f : CkptFile) :
    (n, f) ∈ fsWrite fs n f := by
  induction fs with
  | nil => exact List.mem_singleton.mpr rfl
  | cons e es ih =>
    rw [fsWrite]
    split_ifs with he
    · exact List.mem_cons_self _ _
    · exact List.mem_cons_of_mem e ih

/-- Every entry after a write is the written file or a pre-existing
entry. -/
theorem mem_fsWrite (fs : Phase1Dir) (n : List Char) (f : CkptFile) :
    ∀ x ∈ fsWrite fs n f, x = (n, f) ∨ x ∈ fs := by
  induction fs with
  | nil =>
    intro x hx
    exact Or.inl (List.mem_singleton.mp hx)
  | cons e es ih =>
    intro x hx
    rw [fsWrite] at hx
    split_ifs at hx with he
    · rcases List.mem_cons.mp hx with h | h
      · exact Or.inl h
      · exact Or.inr (List.mem_cons_of_mem e h)
    · rcases List.mem_cons.mp hx with h | h
      · exact Or.inr (h ▸ List.mem_cons_self e es)
      · rcases ih x h with h2 | h2
        · exact Or.inl h2
        · exact Or.inr (List.mem_cons_of_mem e h2)

/-- A write introduces no filename beyond the one written. -/
theorem names_fsWrite (fs : Phase1Dir) (n : List Char) (f : CkptFile) :
    ∀ y ∈ (fsWrite fs n f).map (fun e => e.1),
      y = n ∨ y ∈ fs.map (fun e => e.1) := by
  intro y hy
  obtain ⟨x, hx, rfl⟩ := List.mem_map.mp hy
  rcases mem_fsWrite fs n f x hx with h | h
  · exact Or.inl (by rw [h])
  · exact Or.inr (List.mem_map_of_mem _ h)

/-- Writing preserves distinctness of filenames (an existing name is
overwritten in place, a fresh name is appended). -/
theorem nodup_fsWrite (fs : Phase1Dir) (n : List Char) (f : CkptFile)
    (h : (fs.map (fun e => e.1)).Nodup) :
    ((fsWrite fs n f).map (fun e => e.1)).Nodup := by
  induction fs with
  | nil => simp [fsWrite]
  | cons e es ih =>
    rw [List.map_cons, List.nodup_cons] at h
    rw [fsWrite]
    split_ifs with he
    · rw [List.map_cons, List.nodup_cons]
      exact ⟨he ▸ h.1, h.2⟩
    · rw [List.map_cons, List.nodup_cons]
      refine ⟨?_, ih h.2⟩
      intro hmem
      rcases names_fsWrite es n f e.1 hmem with h2 | h2
      · exact he h2
      · exact h.1 h2

/-- Under distinct filenames an entry is determined by its name. -/
theorem nodup_names_entry_unique (fs : Phase1Dir)
    (h : (fs.map (fun e => e.1)).Nodup) (n : List Char) (a b : CkptFile)
    (ha : (n, a) ∈ fs) (hb : (n, b) ∈ fs) : a = b := by
  induction fs with
  | nil => exact absurd ha (List.not_mem_nil _)
  | cons e es ih =>
    rw [List.map_cons, List.nodup_cons] at h
    rcases List.mem_cons.mp ha with h1 | h1 <;> rcases List.mem_cons.mp hb with h2 | h2
    · rw [← h1] at h2
      exact (Prod.mk.injEq _ _ _ _ ▸ h2).2.symm
    · exact absurd (h1 ▸ List.mem_map_of_mem (fun e => e.1) h2) h.1
    · exact absurd (h2 ▸ List.mem_map_of_mem (fun e => e.1) h1) h.1
    · exact ih h.2 h1 h2

/-- `find?` under distinct filenames returns the unique entry with the
sought name. -/
theorem find?_of_mem_nodup (fs : Phase1Dir)
    (h : (fs.map (fun e => e.1)).Nodup) (n : List Char) (f : CkptFile)
    (hmem : (n, f) ∈ fs) : fs.find? (fun e => e.1 = n) = some (n, f) := by
  induction fs with
  | nil => exact absurd hmem (List.not_mem_nil _)
  | cons e es ih =>
    rw [List.map_cons, List.nodup_cons] at h
    rcases List.mem_cons.mp hmem with h1 | h1
    · rw [List.find?_cons_of_pos _ (by rw [← h1]; simp)]
      rw [h1]
    · have hne : e.1 ≠ n := by
        intro heq
        exact h.1 (heq ▸ List.mem_map_of_mem (fun e => e.1) h1)
      rw [List.find?_cons_of_neg _ (by simpa using hne)]
      exact ih h.2 h1

/-- The fold at the heart of Python `max(..., key=...)`: the result is
drawn from the candidates and its key dominates the accumulator and
every scanned element. -/
theorem foldl_pick_spec (key : List Char → Nat) :
    ∀ (xs : List (List Char)) (b : List Char),
      (xs.foldl (fun b a => if key a > key b then a else b) b ∈ b :: xs) ∧
      key b ≤ key (xs.foldl (fun b a => if key a > key b then a else b) b) ∧
      ∀ y ∈ xs, key y ≤ key (xs.foldl (fun b a => if key a > key b then a else b) b) := by
  intro xs
  induction xs with
  | nil =>
    intro b
    exact ⟨List.mem_singleton.mpr rfl, le_refl _, by intro y hy; exact absurd hy (List.not_mem_nil _)⟩
  | cons x xs ih =>
    intro b
    rw [List.foldl_cons]
    obtain ⟨hmem, hle, hall⟩ := ih (if key x > key b then x else b)
    have hleb : key b ≤ key (if key x > key b then x else b) := by
      split_ifs with hxb
      · exact le_of_lt hxb
      · exact le_refl _
    have hlex : key x ≤ key (if key x > key b then x else b) := by
      split_ifs with hxb
      · exact le_refl _
      · exact not_lt.mp hxb
    refine ⟨?_, le_trans hleb hle, ?_⟩
    · rcases List.mem_cons.mp hmem with h | h
      · rw [h]
        split_ifs with hxb
        · exact List.mem_cons_of_mem b (List.mem_cons_self x xs)
        · exact List.mem_cons_self b (x :: xs)
      · exact List.mem_cons_of_mem b (List.mem_cons_of_mem x h)
    · intro y hy
      rcases List.mem_cons.mp hy with h | h
      · subst h
        exact le_trans hlex hle
      · exact hall y h

/-- `max(files, key=...)` on a non-empty list: the result is one of the
files and carries the maximal key. -/
theorem maxByKey_spec (key : List Char → Nat) (l : List (List Char))
    (hne : l ≠ []) :
    ∃ x, maxByKey key l = some x ∧ x ∈ l ∧ ∀ y ∈ l, key y ≤ key x := by
  cases l with
  | nil => exact absurd rfl hne
  | cons a as =>
    obtain ⟨hmem, hle, hall⟩ := foldl_pick_spec key as a
    refine ⟨_, rfl, hmem, ?_⟩
    intro y hy
    rcases List.mem_cons.mp hy with h | h
    · exact h ▸ hle
    · exact hall y h

/-- Shared core of the resume claims: over a well-formed store that
contains the `.pkl` checkpoint of cursor `c` and no filter-passing file
with a larger cursor, `load_phase1_checkpoint` returns that
checkpoint. -/
theorem load_latest_loaded (fs : Phase1Dir) (c : Nat) (ck : Phase1Checkpoint)
    (hgood : GoodDir fs)
    (hmem : (pklNameChars c, CkptFile.pkl ck) ∈ fs)
    (hmax : ∀ e ∈ fs, isCkptName e.1 = true → parseKey e.1 ≤ c) :
    load_phase1_checkpoint (some fs) = LoadResult.loaded ck := by
  obtain ⟨hnodup, hshape⟩ := hgood
  have hpklmem : pklNameChars c ∈ (fs.map (fun e => e.1)).filter isCkptName := by
    rw [List.mem_filter]
    exact ⟨List.mem_map_of_mem _ hmem, isCkptName_pklName c⟩
  obtain ⟨latest, hmaxeq, hlatestmem, hdom⟩ :=
    maxByKey_spec parseKey _ (List.ne_nil_of_mem hpklmem)
  rw [List.mem_filter] at hlatestmem
  obtain ⟨hlnames, hlfilter⟩ := hlatestmem
  obtain ⟨e, hefs, hename⟩ := List.mem_map.mp hlnames
  obtain ⟨c', ck', hn, hf⟩ := hshape e hefs (by rw [hename]; exact hlfilter)
  have h1 : c' ≤ c := by
    have h := hmax e hefs (by rw [hename]; exact hlfilter)
    rwa [hn, parseKey_pklName] at h
  have h2 : c ≤ c' := by
    have h := hdom (pklNameChars c) hpklmem
    rwa [parseKey_pklName, ← hename, hn, parseKey_pklName] at h
  have hlatest : latest = pklNameChars c := by
    rw [← hename, hn, le_antisymm h1 h2]
  subst hlatest
  have hfind := find?_of_mem_nodup fs hnodup _ _ hmem
  simp only [load_phase1_checkpoint, hmaxeq, hfind]

/-- Writing under a different name leaves an entry in place. -/
theorem mem_fsWrite_of_ne (fs : Phase1Dir) (n : List Char) (f : CkptFile)
    (x : List Char × CkptFile) (hx : x ∈ fs) (hne : x.1 ≠ n) :
    x ∈ fsWrite fs n f := by
  induction fs with
  | nil => exact absurd hx (List.not_mem_nil x)
  | cons e es ih =>
    rw [fsWrite]
    split_ifs with he
    · rcases List.mem_cons.mp hx with h | h
      · exact absurd (h ▸ he) hne
      · exact List.mem_cons_of_mem _ h
    · rcases List.mem_cons.mp hx with h | h
      · exact h ▸ List.mem_cons_self e _
      · exact List.mem_cons_of_mem e (ih h)

/-- Distinct cursors give distinct checkpoint filenames (contrapositive
form used by the witnesses). -/
theorem pklNameChars_ne {a b : Nat} (hab : a ≠ b) :
    pklNameChars a ≠ pklNameChars b :=
  fun h => hab (pklNameChars_inj h)

/-- C2: checkpoint round-trip — a phase-1 checkpoint saved with
`save_phase1_checkpoint(batch_index, pubmed_data, failed_batches,
total_count)` into a well-formed store holding no later-cursor
checkpoint is returned intact by a subsequent `load_phase1_checkpoint`:
same cursor, payload, failed batches, total count and timestamp. -/
theorem save_phase1_roundtrip (dir : Option Phase1Dir) (batch_index : Nat)
    (pubmed_data : List PubRec) (failed_batches : List Nat) (total_count : Nat)
    (now : String)
    (hgood : GoodDir (dir.getD []))
    (hmax : ∀ e ∈ dir.getD [], isCkptName e.1 = true → parseKey e.1 ≤ batch_index) :
    load_phase1_checkpoint
        (some (save_phase1_checkpoint dir batch_index pubmed_data failed_batches
          total_count now)) =
      LoadResult.loaded
        ⟨batch_index, pubmed_data, failed_batches, total_count, now⟩ := by
  have hnodup1 : ((fsWrite (dir.getD []) (pklNameChars batch_index)
      (CkptFile.pkl ⟨batch_index, pubmed_data, failed_batches, total_count, now⟩)).map
        (fun e => e.1)).Nodup :=
    nodup_fsWrite _ _ _ hgood.1
  have hshape1 : ∀ e ∈ fsWrite (dir.getD []) (pklNameChars batch_index)
      (CkptFile.pkl ⟨batch_index, pubmed_data, failed_batches, total_count, now⟩),
      isCkptName e.1 = true → ∃ c ck, e.1 = pklNameChars c ∧ e.2 = CkptFile.pkl ck := by
    intro e he hf
    rcases mem_fsWrite _ _ _ e he with h | h
    · exact ⟨batch_index, ⟨batch_index, pubmed_data, failed_batches, total_count, now⟩,
        by simp [h], by simp [h]⟩
    · exact hgood.2 e h hf
  have hmem1 : (pklNameChars batch_index,
      CkptFile.pkl ⟨batch_index, pubmed_data, failed_batches, total_count, now⟩) ∈
      fsWrite (dir.getD []) (pklNameChars batch_index)
        (CkptFile.pkl ⟨batch_index, pubmed_data, failed_batches, total_count, now⟩) :=
    fsWrite_self _ _ _
  have hmax1 : ∀ e ∈ fsWrite (dir.getD []) (pklNameChars batch_index)
      (CkptFile.pkl ⟨batch_index, pubmed_data, failed_batches, total_count, now⟩),
      isCkptName e.1 = true → parseKey e.1 ≤ batch_index := by
    intro e he hf
    rcases mem_fsWrite _ _ _ e he with h | h
    · rw [h]
      simp [parseKey_pklName]
    · exact hmax e h hf
  simp only [save_phase1_checkpoint]
  split_ifs with hpd
  · refine load_latest_loaded _ batch_index _ ⟨nodup_fsWrite _ _ _ hnodup1, ?_⟩
      (mem_fsWrite_of_ne _ _ _ _ hmem1 (pklName_ne_csvName _ _)) ?_
    · intro e he hf
      rcases mem_fsWrite _ _ _ e he with h | h
      · rw [h] at hf
        simp [isCkptName_csvName] at hf
      · exact hshape1 e h hf
    · intro e he hf
      rcases mem_fsWrite _ _ _ e he with h | h
      · rw [h] at hf
        simp [isCkptName_csvName] at hf
      · exact hmax1 e h hf
  · exact load_latest_loaded _ batch_index _ ⟨hnodup1, hshape1⟩ hmem1 hmax1

/-- C2 witness: saving cursor 7 with a one-record payload into a fresh
(nonexistent) directory and loading returns exactly the saved
checkpoint. -/
theorem save_phase1_roundtrip_witness :
    load_phase1_checkpoint (some (save_phase1_checkpoint none 7
        [[("title", Value.vStr "x")]] [3] 21 "2024-01-01T00:00:00")) =
      LoadResult.loaded
        ⟨7, [[("title", Value.vStr "x")]], [3], 21, "2024-01-01T00:00:00"⟩ := by
  apply save_phase1_roundtrip
  · exact ⟨List.nodup_nil, fun e he => absurd he (List.not_mem_nil e)⟩
  · intro e he
    exact absurd he (List.not_mem_nil e)

/-- C3: resume selects the maximum cursor — over any well-formed store
(any `os.listdir` order) containing the `.pkl` checkpoint of cursor `c`
and no filter-passing file with a larger filename-embedded cursor,
`load_phase1_checkpoint` returns precisely that checkpoint. -/
theorem load_phase1_checkpoint_selects_max_cursor (fs : Phase1Dir) (c : Nat)
    (ck : Phase1Checkpoint) (hgood : GoodDir fs)
    (hmem : (pklNameChars c, CkptFile.pkl ck) ∈ fs)
    (hmax : ∀ e ∈ fs, isCkptName e.1 = true → parseKey e.1 ≤ c) :
    load_phase1_checkpoint (some fs) = LoadResult.loaded ck :=
  load_latest_loaded fs c ck hgood hmem hmax

/-- C3 witness: with snapshots at cursors 100, 0, 150, 50 listed in that
(non-sorted) order, load returns the cursor-150 snapshot. -/
theorem load_phase1_checkpoint_selects_max_cursor_witness :
    load_phase1_checkpoint (some
        [(pklNameChars 100, CkptFile.pkl ⟨100, [], [], 400, "t100"⟩),
         (pklNameChars 0, CkptFile.pkl ⟨0, [], [], 400, "t0"⟩),
         (pklNameChars 150, CkptFile.pkl ⟨150, [], [], 400, "t150"⟩),
         (pklNameChars 50, CkptFile.pkl ⟨50, [], [], 400, "t50"⟩)]) =
      LoadResult.loaded ⟨150, [], [], 400, "t150"⟩ := by
  apply load_phase1_checkpoint_selects_max_cursor
  · refine ⟨?_, ?_⟩
    · simp only [List.map_cons, List.map_nil]
      refine List.nodup_cons.mpr ⟨?_, List.nodup_cons.mpr ⟨?_,
        List.nodup_cons.mpr ⟨?_, List.nodup_singleton _⟩⟩⟩
      · simp only [List.mem_cons, List.not_mem_nil, or_false]
        push_neg
        exact ⟨pklNameChars_ne (by decide), pklNameChars_ne (by decide),
          pklNameChars_ne (by decide)⟩
      · simp only [List.mem_cons, List.not_mem_nil, or_false]
        push_neg
        exact ⟨pklNameChars_ne (by decide), pklNameChars_ne (by decide)⟩
      · simp only [List.mem_cons, List.not_mem_nil, or_false]
        push_neg
        exact pklNameChars_ne (by decide)
    · intro e he hf
      rcases List.mem_cons.mp he with rfl | he
      · exact ⟨100, ⟨100, [], [], 400, "t100"⟩, rfl, rfl⟩
      rcases List.mem_cons.mp he with rfl | he
      · exact ⟨0, ⟨0, [], [], 400, "t0"⟩, rfl, rfl⟩
      rcases List.mem_cons.mp he with rfl | he
      · exact ⟨150, ⟨150, [], [], 400, "t150"⟩, rfl, rfl⟩
      rcases List.mem_cons.mp he with rfl | he
      · exact ⟨50, ⟨50, [], [], 400, "t50"⟩, rfl, rfl⟩
      · exact absurd he (List.not_mem_nil e)
  · exact List.mem_cons_of_mem _ (List.mem_cons_of_mem _ (List.mem_cons_self _ _))
  · intro e he hf
    rcases List.mem_cons.mp he with rfl | he
    · simp [parseKey_pklName]
    rcases List.mem_cons.mp he with rfl | he
    · simp [parseKey_pklName]
    rcases List.mem_cons.mp he with rfl | he
    · simp [parseKey_pklName]
    rcases List.mem_cons.mp he with rfl | he
    · simp [parseKey_pklName]
    · exact absurd he (List.not_mem_nil e)
